import Mathlib

/-! # Product service: handlers and storage accessor

A shallow embedding of `app.go` and `model.go`.

* The Go side (the accessor functions of `model.go`, the handlers of `app.go`)
  is translated function by function, with the same names.
* The relational engine behind `*sql.DB` is not part of the repository. It is
  modelled as a table of rows in scan order together with the id sequence of
  the `SERIAL` column; the seven SQL statements the accessor issues are given
  their usual meaning on that table (`DB.apply`), a price that does not fit
  `NUMERIC(10,2)` and a duplicate key making the statement fail. An engine may
  also turn a statement down for a reason outside the table (lost connection, an
  id beyond the range of its column, ...): `DB.refuse` records which statements
  it turns down.
* Each statement issued is appended to `DB.log`, so that "the handler issues
  no storage operation" is a statement about the log.
* Prices. The column is `NUMERIC(10,2)`: a stored price is a whole number of
  hundredths. The Go fields are `float32`: a finite binary value with 24
  significant bits (`F32`). A JSON number is read into the nearest `float32`
  (`parseFloat32`); a `float32` statement parameter is sent by the driver as the
  shortest decimal text of its `float64` value (`param64`) and brought to two
  decimals by the engine when stored (`toNumeric`); a stored price is read back
  into the nearest `float32` (`scanPrice`); `json.Marshal` writes the shortest
  decimal text of a `float32` (`jsonNumber`). The sign of zero, infinities and
  NaN are not modelled.
* `strconv.Atoi` is modelled for the 64-bit `int`.
* `json.Decoder` is modelled on the level of fields: a handler receives the
  fields of the JSON object of the body, numbers as decimals, or `none` when the
  text of the body does not decode; reading the fields into the Go struct
  (`decodeProduct`, `decodePriceFilter`) fails when a price is beyond `float32`.
* `json.Marshal` is not modelled as text: a response carries the value handed to
  `json.Marshal`. A slice is `none` when it is the nil slice (rendered `null`)
  and `some l` otherwise (`some []` is rendered `[]`).
-/

namespace Semaphore

/-! ## Decimal and binary numbers -/

/-- The decimal number `m / 10 ^ k`: a JSON number, a number in a statement. -/
structure Decimal where
  m : Int
  k : Nat
deriving DecidableEq, Repr

/-- A finite binary floating-point value `m * 2 ^ e`, kept with `m` odd, or
`m = 0` and `e = 0`. A Go `float32` is such a value with `|m| < 2 ^ 24`. -/
structure F32 where
  m : Int
  e : Int
deriving DecidableEq, Repr

/-- Loop of `bitLen`. -/
def bitLenAux : Nat → Nat → Nat
  | 0, _ => 0
  | fuel + 1, n => if n = 0 then 0 else 1 + bitLenAux fuel (n / 2)

/-- Number of binary digits of `n` (`0` for `n = 0`). -/
def bitLen (n : Nat) : Nat := bitLenAux n n

/-- The integer nearest to `n / d`, a tie going to the even one. -/
def roundHalfEven (n d : Nat) : Nat :=
  if 2 * (n % d) < d then n / d
  else if d < 2 * (n % d) then n / d + 1
  else if (n / d) % 2 = 0 then n / d
  else n / d + 1

/-- Loop of `evenOut`. -/
def evenOutAux : Nat → Nat → Int → Nat × Int
  | 0, m, e => (m, e)
  | fuel + 1, m, e => if m % 2 = 0 then evenOutAux fuel (m / 2) (e + 1) else (m, e)

/-- The value `m * 2 ^ e` written with `m` odd (or as `0 * 2 ^ 0`). -/
def evenOut (m : Nat) (e : Int) : Nat × Int :=
  if m = 0 then (0, 0) else evenOutAux (bitLen m) m e

/-- Exponent of the last binary place kept when `a / b > 0` is rounded to `p`
significant bits, no place below `2 ^ emin`. -/
def lastPlace (p : Nat) (emin : Int) (a b : Nat) : Int :=
  let l : Int := (bitLen a : Int) - (bitLen b : Int)
  let ge : Bool :=
    if 0 ≤ l then decide (b * 2 ^ l.toNat ≤ a) else decide (b ≤ a * 2 ^ (-l).toNat)
  let fl : Int := if ge then l else l - 1
  max (fl - ((p : Int) - 1)) emin

/-- Round `a / b` to nearest, ties to even, at `p` significant bits:
significand and exponent, the significand not yet made odd. -/
def roundBinRaw (p : Nat) (emin : Int) (a b : Nat) : Nat × Int :=
  if 0 ≤ lastPlace p emin a b then
    (roundHalfEven a (b * 2 ^ (lastPlace p emin a b).toNat), lastPlace p emin a b)
  else
    (roundHalfEven (a * 2 ^ (-lastPlace p emin a b).toNat) b, lastPlace p emin a b)

/-- Round `a / b` to nearest, ties to even, at `p` significant bits. -/
def roundBin (p : Nat) (emin : Int) (a b : Nat) : Nat × Int :=
  if a = 0 then (0, 0) else evenOut (roundBinRaw p emin a b).1 (roundBinRaw p emin a b).2

/-- Go `strconv.ParseFloat(s, 32)` on the decimal of the text `s`: the nearest
`float32`, or `none` when it reports a range error (the value rounds beyond the
largest `float32`). -/
def parseFloat32 (d : Decimal) : Option F32 :=
  if d.m = 0 then some ⟨0, 0⟩
  else if 128 < (bitLen (roundBinRaw 24 (-149) d.m.natAbs (10 ^ d.k)).1 : Int)
      + (roundBinRaw 24 (-149) d.m.natAbs (10 ^ d.k)).2 then none
  else if d.m < 0 then
    some ⟨-((roundBin 24 (-149) d.m.natAbs (10 ^ d.k)).1 : Int),
          (roundBin 24 (-149) d.m.natAbs (10 ^ d.k)).2⟩
  else
    some ⟨((roundBin 24 (-149) d.m.natAbs (10 ^ d.k)).1 : Int),
          (roundBin 24 (-149) d.m.natAbs (10 ^ d.k)).2⟩

/-- Loop of `decLen`. -/
def decLenAux : Nat → Nat → Nat
  | 0, _ => 0
  | fuel + 1, n => if n = 0 then 0 else 1 + decLenAux fuel (n / 10)

/-- Number of decimal digits of `n` (`0` for `n = 0`). -/
def decLen (n : Nat) : Nat := decLenAux n n

/-- The least `j` from the given one on with `b ≤ a * 10 ^ j`. -/
def leadAux : Nat → Nat → Nat → Nat → Nat
  | 0, _, _, j => j
  | fuel + 1, a, b, j => if b ≤ a * 10 ^ j then j else leadAux fuel a b (j + 1)

/-- Decimal exponent of the first significant digit of `a / b > 0`. -/
def floorLog10 (a b : Nat) : Int :=
  if b ≤ a then (decLen (a / b) : Int) - 1 else -(leadAux 400 a b 1 : Int)

/-- Drop trailing zeros after the decimal point. -/
def Decimal.norm : Nat → Decimal → Decimal
  | 0, d => d
  | fuel + 1, d =>
    match d.k with
    | 0 => d
    | k + 1 => if d.m % 10 = 0 then Decimal.norm fuel ⟨d.m / 10, k⟩ else d

/-- The decimal with `n` significant digits nearest to the binary value
`m * 2 ^ e = a / b` among the (at most two) neighbours of the value that round
back to it at `p` bits, if there is one; `k` is `floorLog10 a b`. -/
def candidate (p : Nat) (emin : Int) (m : Nat) (e : Int) (a b : Nat) (k : Int) (n : Nat) :
    Option Decimal :=
  let u : Int := k - (n : Int) + 1
  let num := if 0 ≤ u then a else a * 10 ^ (-u).toNat
  let den := if 0 ≤ u then b * 10 ^ u.toNat else b
  let lo := num / den
  let r := num % den
  let dec := fun (v : Nat) =>
    if 0 ≤ u then (⟨((v * 10 ^ u.toNat : Nat) : Int), 0⟩ : Decimal) else ⟨(v : Int), (-u).toNat⟩
  let ok := fun (v : Nat) =>
    (if 0 ≤ u then roundBin p emin (v * 10 ^ u.toNat) 1
     else roundBin p emin v (10 ^ (-u).toNat)) == (m, e)
  if r = 0 then (if ok lo then some (dec lo) else none)
  else if ok lo && ok (lo + 1) then
    (if 2 * r < den then some (dec lo)
     else if den < 2 * r then some (dec (lo + 1))
     else if lo % 2 = 0 then some (dec lo)
     else some (dec (lo + 1)))
  else if ok lo then some (dec lo)
  else if ok (lo + 1) then some (dec (lo + 1))
  else none

/-- The binary value `m * 2 ^ e` written out in full as a decimal. -/
def exactDecimal (m : Nat) (e : Int) : Decimal :=
  if 0 ≤ e then ⟨((m * 2 ^ e.toNat : Nat) : Int), 0⟩
  else ⟨((m * 5 ^ (-e).toNat : Nat) : Int), (-e).toNat⟩

/-- Try the numbers of digits in turn. -/
def shortestAux (p : Nat) (emin : Int) (m : Nat) (e : Int) (a b : Nat) (k : Int) :
    List Nat → Decimal
  | [] => exactDecimal m e
  | n :: ns =>
    match candidate p emin m e a b k n with
    | some d => d
    | none => shortestAux p emin m e a b k ns

/-- Go `strconv.FormatFloat(x, 'f', -1, bits)` for `x = m * 2 ^ e > 0`, as a
number: the decimal with the fewest significant digits that rounds back to `x` at
`p` bits, the nearest to `x` among those. -/
def shortest (p : Nat) (emin : Int) (digits : Nat) (m : Nat) (e : Int) : Decimal :=
  if m = 0 then ⟨0, 0⟩
  else if 0 ≤ e then
    shortestAux p emin m e (m * 2 ^ e.toNat) 1 (floorLog10 (m * 2 ^ e.toNat) 1)
      (List.range' 1 digits)
  else
    Decimal.norm (-e).toNat
      (shortestAux p emin m e m (2 ^ (-e).toNat) (floorLog10 m (2 ^ (-e).toNat))
        (List.range' 1 digits))

/-- Give a decimal the sign of `x`. -/
def withSign (x : Int) (d : Decimal) : Decimal := if x < 0 then ⟨-d.m, d.k⟩ else d

/-- A `float32` statement parameter as the driver sends it: the value is widened
to `float64` (the same number) and written with
`strconv.FormatFloat(v, 'f', -1, 64)`. -/
def param64 (f : F32) : Decimal := withSign f.m (shortest 53 (-1074) 17 f.m.natAbs f.e)

/-- The number `json.Marshal` writes for a `float32`:
`strconv.FormatFloat(v, 'f', -1, 32)`. -/
def jsonNumber (f : F32) : Decimal := withSign f.m (shortest 24 (-149) 9 f.m.natAbs f.e)

/-- The engine brings a number to the column type `NUMERIC(10,2)`: hundredths,
rounded to nearest, a tie away from zero. -/
def toNumeric (d : Decimal) : Int :=
  if d.m < 0 then
    -(((if 10 ^ d.k ≤ 2 * ((d.m.natAbs * 100) % 10 ^ d.k)
        then (d.m.natAbs * 100) / 10 ^ d.k + 1 else (d.m.natAbs * 100) / 10 ^ d.k : Nat)) : Int)
  else
    (((if 10 ^ d.k ≤ 2 * ((d.m.natAbs * 100) % 10 ^ d.k)
        then (d.m.natAbs * 100) / 10 ^ d.k + 1 else (d.m.natAbs * 100) / 10 ^ d.k : Nat)) : Int)

/-- `rows.Scan` / `Scan` of a `NUMERIC(10,2)` value of `price` hundredths into a
`float32`: `strconv.ParseFloat` of its text at 32 bits. -/
def scanPrice (price : Int) : Option F32 := parseFloat32 ⟨price, 2⟩

/-- The engine compares a stored price of `price` hundredths with a number:
`d ≤ price`. -/
def Decimal.lePrice (d : Decimal) (price : Int) : Bool := decide (d.m * 100 ≤ price * 10 ^ d.k)

/-- The engine compares a stored price of `price` hundredths with a number:
`price ≤ d`. -/
def Decimal.gePrice (d : Decimal) (price : Int) : Bool := decide (price * 10 ^ d.k ≤ d.m * 100)

/-! ## Data model (`model.go`) -/

/-- Go `type Product struct`. -/
structure Product where
  ID : Int
  Name : String
  Price : F32
deriving DecidableEq, Repr

/-- Go `type ProductNameFilter struct`. -/
structure ProductNameFilter where
  Name : String
deriving DecidableEq, Repr

/-- Go `type ProductPriceFilter struct`. -/
structure ProductPriceFilter where
  MinPrice : F32
  MaxPrice : F32
deriving DecidableEq, Repr

/-- Go `type ProductDuplicateRequest struct`. -/
structure ProductDuplicateRequest where
  OriginId : Int
  NewName : String
deriving DecidableEq, Repr

/-- The zero value of `Product` (`var p Product`). -/
def Product.zero : Product := ⟨0, "", ⟨0, 0⟩⟩

/-- The fields `id`, `name`, `price` of a JSON body for a `Product`, a field
that is absent being zero. -/
structure ProductBody where
  id : Int
  name : String
  price : Decimal
deriving DecidableEq, Repr

/-- The fields `minPrice`, `maxPrice` of a JSON body for a `ProductPriceFilter`. -/
structure PriceFilterBody where
  minPrice : Decimal
  maxPrice : Decimal
deriving DecidableEq, Repr

/-- Outcome of `decoder.Decode(&p)` for a `Product`: `none` when `Decode` returns
an error, because the body does not decode or the price is beyond `float32`. -/
def decodeProduct (body : Option ProductBody) : Option Product :=
  match body with
  | none => none
  | some b =>
    match parseFloat32 b.price with
    | none => none
    | some f => some ⟨b.id, b.name, f⟩

/-- Outcome of `decoder.Decode(&filter)` for a `ProductPriceFilter`. -/
def decodePriceFilter (body : Option PriceFilterBody) : Option ProductPriceFilter :=
  match body with
  | none => none
  | some b =>
    match parseFloat32 b.minPrice, parseFloat32 b.maxPrice with
    | some lo, some hi => some ⟨lo, hi⟩
    | _, _ => none

/-! ## The relational engine -/

/-- A row of the table `products`: `id SERIAL`, `name TEXT`, `price NUMERIC(10,2)`
as a whole number of hundredths. -/
structure Row where
  ID : Int
  Name : String
  Price : Int
deriving DecidableEq, Repr

/-- The SQL statements of `model.go`, with their parameters in the order
`$1, $2, ...` as the driver sends them. -/
inductive Stmt where
  /-- Statement `SELECT name, price FROM products WHERE id=$1` -/
  | selectById (id : Int)
  /-- Statement `UPDATE products SET name=$1, price=$2 WHERE id=$3` -/
  | update (name : String) (price : Decimal) (id : Int)
  /-- Statement `DELETE FROM products WHERE id=$1` -/
  | delete (id : Int)
  /-- Statement `INSERT INTO products(name, price) VALUES($1, $2) RETURNING id` -/
  | insert (name : String) (price : Decimal)
  /-- Statement `SELECT id, name, price FROM products LIMIT $1 OFFSET $2` -/
  | selectPage (limit : Int) (offset : Int)
  /-- Statement `SELECT id, name, price FROM products WHERE name = $1` -/
  | selectByName (name : String)
  /-- Statement `SELECT id, name, price FROM products WHERE price >= $1 AND price <= $2` -/
  | selectByPrice (min : Decimal) (max : Decimal)
deriving DecidableEq, Repr

/-- The database behind `a.DB`: the rows of `products` in scan order, the next
value of `products_id_seq`, the statements the engine turns down, and the
statements issued so far (oldest first). -/
structure DB where
  rows : List Row
  seq : Int
  refuse : Stmt → Option String
  log : List Stmt

/-- Error text of a primary-key violation on `products_pkey`. -/
def pkViolation : String := "pq: duplicate key value violates unique constraint products_pkey"

/-- Error text for a negative `LIMIT` or `OFFSET`. -/
def negativePage : String := "pq: LIMIT and OFFSET must not be negative"

/-- Error text when a price does not fit the column type `NUMERIC(10,2)`. -/
def numericOverflow : String := "pq: numeric field overflow"

/-- A number of hundredths is a value of the column type `NUMERIC(10,2)`: fewer
than ten digits in all, two of them after the point. -/
def fitsColumn (price : Int) : Bool :=
  decide (-10000000000 < price) && decide (price < 10000000000)

/-- Meaning of a statement on the table: the new table and the result rows
(for `INSERT ... RETURNING id` the one row inserted). A price parameter is
brought to the column type when the statement is prepared, before any row is
touched and before the sequence is advanced: a price that does not fit makes the
statement fail. -/
def DB.apply (db : DB) : Stmt → DB × Except String (List Row)
  | .selectById id => (db, .ok (db.rows.filter (fun r => r.ID == id)))
  | .update name price id =>
      let set := fun (r : Row) =>
        if r.ID == id then { r with Name := name, Price := toNumeric price } else r
      if !fitsColumn (toNumeric price) then (db, .error numericOverflow)
      else ({ db with rows := db.rows.map set }, .ok [])
  | .delete id => ({ db with rows := db.rows.filter (fun r => !(r.ID == id)) }, .ok [])
  | .insert name price =>
      if !fitsColumn (toNumeric price) then (db, .error numericOverflow)
      else if db.rows.any (fun r => r.ID == db.seq) then
        ({ db with seq := db.seq + 1 }, .error pkViolation)
      else
        ({ db with rows := db.rows ++ [⟨db.seq, name, toNumeric price⟩], seq := db.seq + 1 },
         .ok [⟨db.seq, name, toNumeric price⟩])
  | .selectPage limit offset =>
      if limit < 0 ∨ offset < 0 then (db, .error negativePage)
      else (db, .ok ((db.rows.drop offset.toNat).take limit.toNat))
  | .selectByName name => (db, .ok (db.rows.filter (fun r => r.Name == name)))
  | .selectByPrice min max =>
      (db, .ok (db.rows.filter (fun r => min.lePrice r.Price && max.gePrice r.Price)))

/-- Issue a statement (`db.Query`, `db.QueryRow`, `db.Exec`): it is logged, then
either turned down by the engine or applied to the table. -/
def DB.run (db : DB) (s : Stmt) : DB × Except String (List Row) :=
  match db.refuse s with
  | some e => ({ db with log := db.log ++ [s] }, .error e)
  | none => DB.apply { db with log := db.log ++ [s] } s

/-- Go `error` values the accessor can return: `sql.ErrNoRows`, or any other
error of the driver with its text. -/
inductive DBError where
  | ErrNoRows
  | driver (msg : String)
deriving DecidableEq, Repr

/-- Go `err.Error()`. -/
def DBError.Error : DBError → String
  | .ErrNoRows => "sql: no rows in result set"
  | .driver msg => msg

/-- Error text of `Scan` when the price does not fit a `float32`. -/
def scanError : String := "sql: Scan error on column price: value out of range"

/-! ## Storage accessor (`model.go`) -/

/-- The loop `for rows.Next()` with `rows.Scan(&p.ID, &p.Name, &p.Price)` and
`append`: the products read, or `none` at the first row whose `Scan` fails. -/
def scanRows : List Row → Option (List Product)
  | [] => some []
  | r :: rs =>
    match scanPrice r.Price with
    | none => none
    | some f =>
      match scanRows rs with
      | none => none
      | some ps => some (⟨r.ID, r.Name, f⟩ :: ps)

/-- Body shared by the three list functions after `db.Query`: on a query error
the nil slice and the error, otherwise the slice built by the scan loop. -/
def collect (res : DB × Except String (List Row)) :
    DB × Option (List Product) × Option DBError :=
  match res with
  | (db1, .error e) => (db1, none, some (.driver e))
  | (db1, .ok rs) =>
    match scanRows rs with
    | none => (db1, none, some (.driver scanError))
    | some ps => (db1, some ps, none)

/-- Go `func (p *Product) getProduct(db *sql.DB) error`: the receiver after the
call and the error (`none` is `nil`). `QueryRow(...).Scan(&p.Name, &p.Price)`
reads the first row and yields `sql.ErrNoRows` when there is none. -/
def Product.getProduct (p : Product) (db : DB) : DB × Product × Option DBError :=
  match db.run (.selectById p.ID) with
  | (db1, .error e) => (db1, p, some (.driver e))
  | (db1, .ok []) => (db1, p, some .ErrNoRows)
  | (db1, .ok (r :: _)) =>
    match scanPrice r.Price with
    | none => (db1, { p with Name := r.Name }, some (.driver scanError))
    | some f => (db1, { p with Name := r.Name, Price := f }, none)

/-- Go `func (p *Product) updateProduct(db *sql.DB) error`. -/
def Product.updateProduct (p : Product) (db : DB) : DB × Option DBError :=
  match db.run (.update p.Name (param64 p.Price) p.ID) with
  | (db1, .error e) => (db1, some (.driver e))
  | (db1, .ok _) => (db1, none)

/-- Go `func (p *Product) deleteProduct(db *sql.DB) error`. -/
def Product.deleteProduct (p : Product) (db : DB) : DB × Option DBError :=
  match db.run (.delete p.ID) with
  | (db1, .error e) => (db1, some (.driver e))
  | (db1, .ok _) => (db1, none)

/-- Go `func (p *Product) createProduct(db *sql.DB) error`: `Scan(&p.ID)` stores
the returned id in the receiver. -/
def Product.createProduct (p : Product) (db : DB) : DB × Product × Option DBError :=
  match db.run (.insert p.Name (param64 p.Price)) with
  | (db1, .error e) => (db1, p, some (.driver e))
  | (db1, .ok []) => (db1, p, some .ErrNoRows)
  | (db1, .ok (r :: _)) => (db1, { p with ID := r.ID }, none)

/-- Go `func getProducts(db *sql.DB, start, count int) ([]Product, error)`:
`products := []Product{}` is a non-nil slice; on error the nil slice is returned. -/
def getProducts (db : DB) (start count : Int) : DB × Option (List Product) × Option DBError :=
  collect (db.run (.selectPage count start))

/-- Go `func getProductsByName(db *sql.DB, name string) ([]Product, error)`. -/
def getProductsByName (db : DB) (name : String) :
    DB × Option (List Product) × Option DBError :=
  collect (db.run (.selectByName name))

/-- Go `func getProductsByPriceRange(db *sql.DB, filter ProductPriceFilter) ([]Product, error)`. -/
def getProductsByPriceRange (db : DB) (filter : ProductPriceFilter) :
    DB × Option (List Product) × Option DBError :=
  collect (db.run (.selectByPrice (param64 filter.MinPrice) (param64 filter.MaxPrice)))

/-! ## `strconv.Atoi` -/

/-- Largest value of the 64-bit `int`. -/
def maxInt : Int := 9223372036854775807

/-- Smallest value of the 64-bit `int`. -/
def minInt : Int := -9223372036854775808

/-- Largest value of `uint64`. -/
def maxUint64 : Nat := 18446744073709551615

/-- A decimal digit. -/
def isDigit (c : Char) : Bool := decide (48 ≤ c.toNat) && decide (c.toNat ≤ 57)

/-- Value of a run of decimal digits read after the value `n`. -/
def digitsValueFrom (n : Nat) (cs : List Char) : Nat :=
  cs.foldl (fun n c => n * 10 + (c.toNat - 48)) n

/-- Value of a run of decimal digits. -/
def digitsValue (cs : List Char) : Nat := digitsValueFrom 0 cs

/-- The two kinds of error of `strconv`: the text is not a numeral (`malformed`)
or the numeral is out of range (`outOfRange`). -/
inductive NumError where
  | malformed
  | outOfRange
deriving DecidableEq, Repr

/-- The loop of Go `strconv.ParseUint(s, 10, 64)` from the value `n` on: each
character is tested to be a digit when it is reached, and the loop stops with the
range error, and the largest `uint64`, at the first digit that overflows. -/
def parseUintLoop : Nat → List Char → Nat × Option NumError
  | n, [] => (n, none)
  | n, c :: cs =>
    if !isDigit c then (0, some .malformed)
    else if 1844674407370955162 ≤ n then (maxUint64, some .outOfRange)
    else if maxUint64 < n * 10 + (c.toNat - 48) then (maxUint64, some .outOfRange)
    else parseUintLoop (n * 10 + (c.toNat - 48)) cs

/-- Go `strconv.ParseUint(s, 10, 64)`. -/
def ParseUint (s : List Char) : Nat × Option NumError :=
  match s with
  | [] => (0, some .malformed)
  | _ :: _ => parseUintLoop 0 s

/-- The part of Go `strconv.ParseInt(s, 10, 0)` after the sign is taken off:
`un` and `err` are the results of `ParseUint`. -/
def signedResult (neg : Bool) (un : Nat) (err : Option NumError) : Int × Option NumError :=
  match err with
  | some .malformed => (0, some .malformed)
  | _ =>
    if !neg && decide (9223372036854775808 ≤ un) then (maxInt, some .outOfRange)
    else if neg && decide (9223372036854775808 < un) then (minInt, some .outOfRange)
    else (if neg then -(un : Int) else (un : Int), none)

/-- Go `strconv.ParseInt(s, 10, 0)` on a 64-bit platform. -/
def ParseInt (s : List Char) : Int × Option NumError :=
  match s with
  | [] => (0, some .malformed)
  | c :: rest =>
    if c == '-' then signedResult true (ParseUint rest).1 (ParseUint rest).2
    else if c == '+' then signedResult false (ParseUint rest).1 (ParseUint rest).2
    else signedResult false (ParseUint (c :: rest)).1 (ParseUint (c :: rest)).2

/-- Go `strconv.Atoi` on a 64-bit platform: the value and whether `err != nil`
(for short strings Go takes a fast path that computes the same as `ParseInt`). -/
def Atoi (s : String) : Int × Bool := ((ParseInt s.data).1, (ParseInt s.data).2.isSome)

/-! ## Responses (`app.go`) -/

/-- The values handed to `json.Marshal` by the handlers. -/
inductive Payload where
  /-- The map with the one key `error`, bound to the message. -/
  | errorMap (message : String)
  /-- The map with the one key `result`, bound to `success`. -/
  | resultSuccess
  /-- A `Product`. -/
  | product (p : Product)
  /-- A `[]Product`: `none` is the nil slice. -/
  | products (ps : Option (List Product))
deriving DecidableEq, Repr

/-- What `respondWithJSON` writes: status code, `Content-Type`, body. -/
structure Response where
  code : Nat
  contentType : String
  body : Payload
deriving DecidableEq, Repr

def StatusOK : Nat := 200
def StatusCreated : Nat := 201
def StatusBadRequest : Nat := 400
def StatusNotFound : Nat := 404
def StatusInternalServerError : Nat := 500

/-- Go `const invalidRequestPayloadMsg`. -/
def invalidRequestPayloadMsg : String := "Invalid request payload"

/-- Go `func respondWithJSON`. -/
def respondWithJSON (code : Nat) (payload : Payload) : Response :=
  ⟨code, "application/json", payload⟩

/-- Go `func respondWithError`. -/
def respondWithError (code : Nat) (message : String) : Response :=
  respondWithJSON code (.errorMap message)

/-! ## Handlers (`app.go`) -/

/-- Go `func (a *App) getProduct`; `id` is `mux.Vars(r)["id"]`. -/
def App.getProduct (db : DB) (id : String) : DB × Response :=
  match Atoi id with
  | (_, true) => (db, respondWithError StatusBadRequest "Invalid product ID")
  | (n, false) =>
    match Product.getProduct { Product.zero with ID := n } db with
    | (db1, _, some .ErrNoRows) => (db1, respondWithError StatusNotFound "Product not found")
    | (db1, _, some e) => (db1, respondWithError StatusInternalServerError e.Error)
    | (db1, p, none) => (db1, respondWithJSON StatusOK (.product p))

/-- Go `func (a *App) getProducts`; `count` and `start` are `r.FormValue("count")`
and `r.FormValue("start")`, the empty string when the parameter is absent. -/
def App.getProducts (db : DB) (count start : String) : DB × Response :=
  let count1 := (Atoi count).1
  let start1 := (Atoi start).1
  let count2 := if count1 > 10 ∨ count1 < 1 then 10 else count1
  let start2 := if start1 < 0 then 0 else start1
  match Semaphore.getProducts db start2 count2 with
  | (db1, _, some e) => (db1, respondWithError StatusInternalServerError e.Error)
  | (db1, products, none) => (db1, respondWithJSON StatusOK (.products products))

/-- Go `func (a *App) createProduct`; `body` holds the fields of the request body. -/
def App.createProduct (db : DB) (body : Option ProductBody) : DB × Response :=
  match decodeProduct body with
  | none => (db, respondWithError StatusBadRequest invalidRequestPayloadMsg)
  | some p =>
    match Product.createProduct p db with
    | (db1, _, some e) => (db1, respondWithError StatusInternalServerError e.Error)
    | (db1, p1, none) => (db1, respondWithJSON StatusCreated (.product p1))

/-- Go `func (a *App) updateProduct`. -/
def App.updateProduct (db : DB) (id : String) (body : Option ProductBody) : DB × Response :=
  match Atoi id with
  | (_, true) => (db, respondWithError StatusBadRequest "Invalid product ID")
  | (n, false) =>
    match decodeProduct body with
    | none => (db, respondWithError StatusBadRequest invalidRequestPayloadMsg)
    | some p0 =>
      let p := { p0 with ID := n }
      match Product.updateProduct p db with
      | (db1, some e) => (db1, respondWithError StatusInternalServerError e.Error)
      | (db1, none) => (db1, respondWithJSON StatusOK (.product p))

/-- Go `func (a *App) deleteProduct`. -/
def App.deleteProduct (db : DB) (id : String) : DB × Response :=
  match Atoi id with
  | (_, true) => (db, respondWithError StatusBadRequest "Invalid Product ID")
  | (n, false) =>
    match Product.deleteProduct { Product.zero with ID := n } db with
    | (db1, some e) => (db1, respondWithError StatusInternalServerError e.Error)
    | (db1, none) => (db1, respondWithJSON StatusOK .resultSuccess)

/-- Go `func (a *App) duplicateProduct`; `body` is the outcome of
`decoder.Decode(&req)`. -/
def App.duplicateProduct (db : DB) (body : Option ProductDuplicateRequest) : DB × Response :=
  match body with
  | none => (db, respondWithError StatusBadRequest invalidRequestPayloadMsg)
  | some req =>
    match Product.getProduct { Product.zero with ID := req.OriginId } db with
    | (db1, _, some .ErrNoRows) => (db1, respondWithError StatusNotFound "Product not found")
    | (db1, _, some e) => (db1, respondWithError StatusInternalServerError e.Error)
    | (db1, origin, none) =>
      let p := { Product.zero with Name := req.NewName, Price := origin.Price }
      match Product.createProduct p db1 with
      | (db2, _, some e) => (db2, respondWithError StatusInternalServerError e.Error)
      | (db2, p1, none) => (db2, respondWithJSON StatusCreated (.product p1))

/-- Go `func (a *App) filterByName`; `body` is the outcome of
`decoder.Decode(&filter)`. -/
def App.filterByName (db : DB) (body : Option ProductNameFilter) : DB × Response :=
  match body with
  | none => (db, respondWithError StatusBadRequest invalidRequestPayloadMsg)
  | some filter =>
    match getProductsByName db filter.Name with
    | (db1, _, some e) => (db1, respondWithError StatusInternalServerError e.Error)
    | (db1, p, none) => (db1, respondWithJSON StatusOK (.products p))

/-- Go `func (a *App) filterByPrice`; `body` holds the fields of the request body. -/
def App.filterByPrice (db : DB) (body : Option PriceFilterBody) : DB × Response :=
  match decodePriceFilter body with
  | none => (db, respondWithError StatusBadRequest invalidRequestPayloadMsg)
  | some filter =>
    match getProductsByPriceRange db filter with
    | (db1, _, some e) => (db1, respondWithError StatusInternalServerError e.Error)
    | (db1, p, none) => (db1, respondWithJSON StatusOK (.products p))

/-! ## Table states -/

/-- The engine turns no statement down. -/
def DB.healthy (db : DB) : Prop := ∀ s, db.refuse s = none

/-- Every stored id was handed out by the sequence: it lies below the next value. -/
def DB.seqAhead (db : DB) : Prop := ∀ r ∈ db.rows, r.ID < db.seq

/-- The primary key `products_pkey`: no two rows share an id. -/
def DB.keyed (db : DB) : Prop := (db.rows.map (fun r => r.ID)).Nodup

/-- Every stored price is a value of the column type `NUMERIC(10,2)`. -/
def DB.inColumn (db : DB) : Prop :=
  ∀ r ∈ db.rows, -10000000000 < r.Price ∧ r.Price < 10000000000

/-- A product `p` is what the scan of row `r` yields: the id and the name of the
row and the `float32` nearest to its price. -/
def Reads (r : Row) (p : Product) : Prop :=
  p.ID = r.ID ∧ p.Name = r.Name ∧ scanPrice r.Price = some p.Price

/-- A table holding `rows` with next id `seq`, on an engine that turns nothing
down, with an empty log. -/
def DB.mk0 (rows : List Row) (seq : Int) : DB := ⟨rows, seq, fun _ => none, []⟩

/-- The empty table with a fresh sequence (`clearTable` of the tests). -/
def DB.empty : DB := DB.mk0 [] 1

/-! ## The clamp of the specification -/

/-- Clamp of `count` as the specification words it: the value when it lies in
`[1,10]`, the default `10` otherwise. -/
def clampCount (count : Int) : Int := if 1 ≤ count ∧ count ≤ 10 then count else 10

/-- Clamp of `start` as the specification words it: the value when it is `≥ 0`,
the default `0` otherwise. -/
def clampStart (start : Int) : Int := if 0 ≤ start then start else 0

end Semaphore

namespace Semaphore

/-! ## Lemmas on the engine -/

theorem run_refused (db : DB) (s : Stmt) (e : String) (h : db.refuse s = some e) :
    db.run s = ({ db with log := db.log ++ [s] }, .error e) := by
  simp [DB.run, h]

theorem run_applied (db : DB) (s : Stmt) (h : db.refuse s = none) :
    db.run s = DB.apply { db with log := db.log ++ [s] } s := by
  simp [DB.run, h]

/-! ## Lemmas on `strconv.Atoi` -/

theorem isDigit_val (c : Char) (h : isDigit c = true) : c.toNat - 48 ≤ 9 := by
  unfold isDigit at h
  simp only [Bool.and_eq_true, decide_eq_true_eq] at h
  omega

theorem digitsValueFrom_ge (ds : List Char) (n : Nat) : n ≤ digitsValueFrom n ds := by
  induction ds generalizing n with
  | nil => exact Nat.le_refl n
  | cons c cs ih =>
    have h1 := ih (n * 10 + (c.toNat - 48))
    have h2 : digitsValueFrom n (c :: cs) = digitsValueFrom (n * 10 + (c.toNat - 48)) cs := rfl
    rw [h2]
    omega

theorem parseUintLoop_digits (ds : List Char) (n : Nat) (hn : n ≤ maxUint64)
    (hd : ∀ c ∈ ds, isDigit c = true) :
    parseUintLoop n ds =
      if digitsValueFrom n ds ≤ maxUint64 then (digitsValueFrom n ds, none)
      else (maxUint64, some .outOfRange) := by
  induction ds generalizing n with
  | nil =>
    simp [parseUintLoop, digitsValueFrom, hn]
  | cons c cs ih =>
    have hc : isDigit c = true := hd c (List.mem_cons_self _ _)
    have hcs : ∀ x ∈ cs, isDigit x = true := fun x hx => hd x (List.mem_cons_of_mem _ hx)
    have hv := isDigit_val c hc
    have h2 : digitsValueFrom n (c :: cs) = digitsValueFrom (n * 10 + (c.toNat - 48)) cs := rfl
    have hge := digitsValueFrom_ge cs (n * 10 + (c.toNat - 48))
    have hmax : maxUint64 = 18446744073709551615 := rfl
    rw [h2]
    unfold parseUintLoop
    simp only [hc, Bool.not_true, Bool.false_eq_true, if_false]
    by_cases h1 : 1844674407370955162 ≤ n
    · rw [if_pos h1, if_neg (by omega)]
    · rw [if_neg h1]
      by_cases h3 : maxUint64 < n * 10 + (c.toNat - 48)
      · rw [if_pos h3, if_neg (by omega)]
      · rw [if_neg h3]
        exact ih (n * 10 + (c.toNat - 48)) (by omega) hcs

theorem Atoi_digits (c : Char) (cs : List Char) (hd : ∀ x ∈ c :: cs, isDigit x = true) :
    Atoi (String.mk (c :: cs)) =
      if digitsValue (c :: cs) ≤ 9223372036854775807 then ((digitsValue (c :: cs) : Int), false)
      else (maxInt, true) := by
  have hc : isDigit c = true := hd c (List.mem_cons_self _ _)
  have hm : (c == '-') = false := by
    rw [beq_eq_false_iff_ne]
    intro h
    rw [h] at hc
    exact absurd hc (by decide)
  have hp : (c == '+') = false := by
    rw [beq_eq_false_iff_ne]
    intro h
    rw [h] at hc
    exact absurd hc (by decide)
  have hl := parseUintLoop_digits (c :: cs) 0 (by decide) hd
  unfold Atoi ParseInt
  simp only [hm, hp, Bool.false_eq_true, if_false, ParseUint]
  rw [hl]
  unfold digitsValue maxUint64
  by_cases h1 : digitsValueFrom 0 (c :: cs) ≤ 18446744073709551615
  · rw [if_pos h1]
    by_cases h2 : digitsValueFrom 0 (c :: cs) ≤ 9223372036854775807
    · rw [if_pos h2]
      have h3 : ¬ 9223372036854775808 ≤ digitsValueFrom 0 (c :: cs) := by omega
      simp [signedResult, h3]
    · rw [if_neg h2]
      have h3 : 9223372036854775808 ≤ digitsValueFrom 0 (c :: cs) := by omega
      simp [signedResult, h3]
  · rw [if_neg h1, if_neg (by omega)]
    simp [signedResult]

theorem Atoi_minus_digits (c : Char) (cs : List Char) (hd : ∀ x ∈ c :: cs, isDigit x = true) :
    Atoi (String.mk ('-' :: c :: cs)) =
      if digitsValue (c :: cs) ≤ 9223372036854775808 then (-(digitsValue (c :: cs) : Int), false)
      else (minInt, true) := by
  have hl := parseUintLoop_digits (c :: cs) 0 (by decide) hd
  unfold Atoi ParseInt
  simp only [beq_self_eq_true, if_true, ParseUint]
  rw [hl]
  unfold digitsValue maxUint64
  by_cases h1 : digitsValueFrom 0 (c :: cs) ≤ 18446744073709551615
  · rw [if_pos h1]
    by_cases h2 : digitsValueFrom 0 (c :: cs) ≤ 9223372036854775808
    · rw [if_pos h2]
      have h3 : ¬ 9223372036854775808 < digitsValueFrom 0 (c :: cs) := by omega
      simp [signedResult, h3]
    · rw [if_neg h2]
      have h3 : 9223372036854775808 < digitsValueFrom 0 (c :: cs) := by omega
      simp [signedResult, h3]
  · rw [if_neg h1, if_neg (by omega)]
    simp [signedResult]

theorem Atoi_plus_digits (c : Char) (cs : List Char) (hd : ∀ x ∈ c :: cs, isDigit x = true) :
    Atoi (String.mk ('+' :: c :: cs)) =
      if digitsValue (c :: cs) ≤ 9223372036854775807 then ((digitsValue (c :: cs) : Int), false)
      else (maxInt, true) := by
  have hl := parseUintLoop_digits (c :: cs) 0 (by decide) hd
  have hpm : ('+' == '-') = false := by decide
  unfold Atoi ParseInt
  simp only [hpm, beq_self_eq_true, Bool.false_eq_true, if_false, if_true, ParseUint]
  rw [hl]
  unfold digitsValue maxUint64
  by_cases h1 : digitsValueFrom 0 (c :: cs) ≤ 18446744073709551615
  · rw [if_pos h1]
    by_cases h2 : digitsValueFrom 0 (c :: cs) ≤ 9223372036854775807
    · rw [if_pos h2]
      have h3 : ¬ 9223372036854775808 ≤ digitsValueFrom 0 (c :: cs) := by omega
      simp [signedResult, h3]
    · rw [if_neg h2]
      have h3 : 9223372036854775808 ≤ digitsValueFrom 0 (c :: cs) := by omega
      simp [signedResult, h3]
  · rw [if_neg h1, if_neg (by omega)]
    simp [signedResult]

theorem Atoi_other_head (c : Char) (cs : List Char) (hc : isDigit c = false)
    (hm : c ≠ '-') (hp : c ≠ '+') : Atoi (String.mk (c :: cs)) = (0, true) := by
  have hm1 : (c == '-') = false := by simpa using hm
  have hp1 : (c == '+') = false := by simpa using hp
  unfold Atoi ParseInt
  simp [hm1, hp1, ParseUint, parseUintLoop, hc, signedResult]

theorem signedResult_err_val (neg : Bool) (un : Nat) (err : Option NumError)
    (h : (signedResult neg un err).2.isSome = true) :
    (signedResult neg un err).1 = 0 ∨ (signedResult neg un err).1 = maxInt ∨
      (signedResult neg un err).1 = minInt := by
  unfold signedResult at h ⊢
  split
  · simp
  · split_ifs at h ⊢ <;> simp_all

theorem Atoi_err_val (s : String) (h : (Atoi s).2 = true) :
    (Atoi s).1 = 0 ∨ (Atoi s).1 = maxInt ∨ (Atoi s).1 = minInt := by
  unfold Atoi ParseInt at h ⊢
  generalize s.data = l at h ⊢
  cases l with
  | nil => simp
  | cons c rest =>
    dsimp only at h ⊢
    split_ifs at h ⊢ <;> exact signedResult_err_val _ _ _ h

/-! ## Lemmas on reading a stored price -/

theorem bitLenAux_le (fuel n k : Nat) (h : n < 2 ^ k) : bitLenAux fuel n ≤ k := by
  induction fuel generalizing n k with
  | zero => simp [bitLenAux]
  | succ f ih =>
    unfold bitLenAux
    split_ifs with h0
    · omega
    · cases k with
      | zero =>
        simp at h
        omega
      | succ k1 =>
        have h1 : n / 2 < 2 ^ k1 := by
          rw [Nat.pow_succ] at h
          omega
        have h2 := ih (n / 2) k1 h1
        omega

theorem bitLen_le (n k : Nat) (h : n < 2 ^ k) : bitLen n ≤ k := bitLenAux_le n n k h

theorem roundHalfEven_le (n d : Nat) : roundHalfEven n d ≤ n + 1 := by
  have h := Nat.div_le_self n d
  unfold roundHalfEven
  split_ifs <;> omega

theorem lastPlace_le (a b : Nat) : lastPlace 24 (-149) a b ≤ (bitLen a : Int) := by
  unfold lastPlace
  dsimp only
  apply max_le
  · split_ifs <;> omega
  · omega

/-- Every value of the column type `NUMERIC(10,2)` can be read into a `float32`:
`Scan` does not fail on it. -/
theorem scanPrice_isSome (c : Int) (h1 : -10000000000 < c) (h2 : c < 10000000000) :
    ∃ f, scanPrice c = some f := by
  have ha : c.natAbs < 2 ^ 34 := by
    have : (2 : Nat) ^ 34 = 17179869184 := by norm_num
    omega
  have hlen : bitLen c.natAbs ≤ 34 := bitLen_le _ _ ha
  have hb : ¬ (128 < (bitLen (roundBinRaw 24 (-149) c.natAbs (10 ^ 2)).1 : Int)
      + (roundBinRaw 24 (-149) c.natAbs (10 ^ 2)).2) := by
    have hl := lastPlace_le c.natAbs (10 ^ 2)
    unfold roundBinRaw
    split_ifs with he
    · dsimp only
      have hm := roundHalfEven_le c.natAbs (10 ^ 2 * 2 ^ (lastPlace 24 (-149) c.natAbs (10 ^ 2)).toNat)
      have hm2 : roundHalfEven c.natAbs
          (10 ^ 2 * 2 ^ (lastPlace 24 (-149) c.natAbs (10 ^ 2)).toNat) < 2 ^ 35 := by
        have : (2 : Nat) ^ 35 = 2 * 2 ^ 34 := by norm_num
        omega
      have := bitLen_le _ _ hm2
      omega
    · dsimp only
      have hm := roundHalfEven_le
        (c.natAbs * 2 ^ (-lastPlace 24 (-149) c.natAbs (10 ^ 2)).toNat) (10 ^ 2)
      have hp : 0 < 2 ^ (-lastPlace 24 (-149) c.natAbs (10 ^ 2)).toNat :=
        Nat.pow_pos (by norm_num)
      have hmul : c.natAbs * 2 ^ (-lastPlace 24 (-149) c.natAbs (10 ^ 2)).toNat + 1
          ≤ 2 ^ 34 * 2 ^ (-lastPlace 24 (-149) c.natAbs (10 ^ 2)).toNat := by
        have h3 : (c.natAbs + 1) * 2 ^ (-lastPlace 24 (-149) c.natAbs (10 ^ 2)).toNat
            ≤ 2 ^ 34 * 2 ^ (-lastPlace 24 (-149) c.natAbs (10 ^ 2)).toNat :=
          Nat.mul_le_mul_right _ ha
        rw [Nat.add_mul, Nat.one_mul] at h3
        omega
      have hm2 : roundHalfEven
          (c.natAbs * 2 ^ (-lastPlace 24 (-149) c.natAbs (10 ^ 2)).toNat) (10 ^ 2)
          < 2 ^ (35 + (-lastPlace 24 (-149) c.natAbs (10 ^ 2)).toNat) := by
        rw [Nat.pow_add]
        have : (2 : Nat) ^ 35 = 2 * 2 ^ 34 := by norm_num
        rw [this, Nat.mul_assoc]
        omega
      have := bitLen_le _ _ hm2
      omega
  unfold scanPrice parseFloat32
  dsimp only
  by_cases h0 : c = 0
  · exact ⟨_, if_pos h0⟩
  · rw [if_neg h0, if_neg hb]
    split_ifs
    · exact ⟨_, rfl⟩
    · exact ⟨_, rfl⟩

theorem scanRows_reads (rs : List Row) (ps : List Product) (h : scanRows rs = some ps) :
    List.Forall₂ Reads rs ps := by
  induction rs generalizing ps with
  | nil =>
    simp only [scanRows, Option.some.injEq] at h
    rw [← h]
    exact List.Forall₂.nil
  | cons r rs ih =>
    unfold scanRows at h
    cases hf : scanPrice r.Price with
    | none => simp [hf] at h
    | some f =>
      cases hr : scanRows rs with
      | none => simp [hf, hr] at h
      | some qs =>
        simp only [hf, hr, Option.some.injEq] at h
        rw [← h]
        exact List.Forall₂.cons ⟨rfl, rfl, hf⟩ (ih qs hr)

theorem reads_scanRows (rs : List Row) (ps : List Product) (h : List.Forall₂ Reads rs ps) :
    scanRows rs = some ps := by
  induction rs generalizing ps with
  | nil =>
    cases h
    rfl
  | cons r rs ih =>
    cases h with
    | cons hrp hrest =>
      rename_i q qs
      obtain ⟨h1, h2, h3⟩ := hrp
      unfold scanRows
      rw [h3, ih qs hrest]
      cases q
      dsimp only at h1 h2 ⊢
      rw [h1, h2]

theorem scanRows_exists (rs : List Row)
    (h : ∀ r ∈ rs, -10000000000 < r.Price ∧ r.Price < 10000000000) :
    ∃ ps, scanRows rs = some ps := by
  induction rs with
  | nil => exact ⟨[], rfl⟩
  | cons r rs ih =>
    obtain ⟨f, hf⟩ := scanPrice_isSome r.Price (h r (List.mem_cons_self _ _)).1
      (h r (List.mem_cons_self _ _)).2
    obtain ⟨ps, hps⟩ := ih (fun x hx => h x (List.mem_cons_of_mem _ hx))
    exact ⟨⟨r.ID, r.Name, f⟩ :: ps, by simp [scanRows, hf, hps]⟩

/-! ## Lemmas on the accessor and the handlers -/

theorem collect_ok (db1 : DB) (rs : List Row) (ps : List Product) (h : scanRows rs = some ps) :
    collect (db1, .ok rs) = (db1, some ps, none) := by
  simp [collect, h]

theorem getProducts_ok (db : DB) (start count : Int) (hs : 0 ≤ start) (hc : 0 ≤ count)
    (h : db.refuse (.selectPage count start) = none) (ps : List Product)
    (hp : scanRows ((db.rows.drop start.toNat).take count.toNat) = some ps) :
    getProducts db start count =
      ({ db with log := db.log ++ [.selectPage count start] }, some ps, none) := by
  have hn : ¬ (count < 0 ∨ start < 0) := by omega
  unfold getProducts
  rw [run_applied db _ h]
  simp only [DB.apply, hn, if_false]
  exact collect_ok _ _ _ hp

theorem getProduct_refused (p : Product) (db : DB) (e : String)
    (h : db.refuse (.selectById p.ID) = some e) :
    Product.getProduct p db =
      ({ db with log := db.log ++ [.selectById p.ID] }, p, some (.driver e)) := by
  simp [Product.getProduct, run_refused db _ e h]

theorem getProduct_none (p : Product) (db : DB) (h : db.refuse (.selectById p.ID) = none)
    (hf : ∀ r ∈ db.rows, r.ID ≠ p.ID) :
    Product.getProduct p db =
      ({ db with log := db.log ++ [.selectById p.ID] }, p, some .ErrNoRows) := by
  have hnil : db.rows.filter (fun r => r.ID == p.ID) = [] := by
    rw [List.filter_eq_nil_iff]
    intro r hr
    simpa using hf r hr
  simp [Product.getProduct, run_applied db _ h, DB.apply, hnil]

theorem getProduct_some (p : Product) (db : DB) (h : db.refuse (.selectById p.ID) = none)
    (r : Row) (t : List Row) (hf : db.rows.filter (fun r => r.ID == p.ID) = r :: t)
    (f : F32) (hs : scanPrice r.Price = some f) :
    Product.getProduct p db =
      ({ db with log := db.log ++ [.selectById p.ID] },
       { p with Name := r.Name, Price := f }, none) := by
  simp [Product.getProduct, run_applied db _ h, DB.apply, hf, hs]

theorem getProduct_unreadable (p : Product) (db : DB)
    (h : db.refuse (.selectById p.ID) = none)
    (r : Row) (t : List Row) (hf : db.rows.filter (fun r => r.ID == p.ID) = r :: t)
    (hs : scanPrice r.Price = none) :
    Product.getProduct p db =
      ({ db with log := db.log ++ [.selectById p.ID] },
       { p with Name := r.Name }, some (.driver scanError)) := by
  simp [Product.getProduct, run_applied db _ h, DB.apply, hf, hs]

theorem filter_id_head (rows : List Row) (id : Int) (r : Row) (t : List Row)
    (hf : rows.filter (fun r => r.ID == id) = r :: t) : r ∈ rows ∧ r.ID = id := by
  have hm : r ∈ rows.filter (fun r => r.ID == id) := by
    rw [hf]
    exact List.mem_cons_self _ _
  rw [List.mem_filter] at hm
  exact ⟨hm.1, by simpa using hm.2⟩

theorem filter_id_keyed (rows : List Row) (hk : (rows.map (fun r => r.ID)).Nodup)
    (o : Row) (ho : o ∈ rows) : rows.filter (fun r => r.ID == o.ID) = [o] := by
  induction rows with
  | nil => cases ho
  | cons a t ih =>
    rw [List.map_cons, List.nodup_cons] at hk
    rcases List.mem_cons.mp ho with hoa | hot
    · subst hoa
      have hnil : t.filter (fun r => r.ID == o.ID) = [] := by
        rw [List.filter_eq_nil_iff]
        intro r hr hid
        exact hk.1 (List.mem_map.mpr ⟨r, hr, by simpa using hid⟩)
      simp [List.filter_cons, hnil]
    · have hne : ¬ a.ID = o.ID := by
        intro hid
        exact hk.1 (List.mem_map.mpr ⟨o, hot, hid.symm⟩)
      simp [List.filter_cons, hne, ih hk.2 hot]

theorem fitsColumn_iff (c : Int) :
    fitsColumn c = true ↔ -10000000000 < c ∧ c < 10000000000 := by
  simp [fitsColumn]

theorem createProduct_ok (p : Product) (db : DB)
    (h : db.refuse (.insert p.Name (param64 p.Price)) = none)
    (hfit : fitsColumn (toNumeric (param64 p.Price)) = true)
    (hf : ∀ r ∈ db.rows, r.ID ≠ db.seq) :
    Product.createProduct p db =
      ({ db with rows := db.rows ++ [⟨db.seq, p.Name, toNumeric (param64 p.Price)⟩],
                 seq := db.seq + 1,
                 log := db.log ++ [.insert p.Name (param64 p.Price)] },
       { p with ID := db.seq }, none) := by
  have hany : db.rows.any (fun r => r.ID == db.seq) = false := by
    rw [List.any_eq_false]
    intro r hr
    simpa using hf r hr
  simp [Product.createProduct, run_applied db _ h, DB.apply, hany, hfit]

theorem seqAhead_mk0_nil (seq : Int) : (DB.mk0 [] seq).seqAhead := by
  intro r hr
  cases hr

theorem seqAhead_fresh (db : DB) (h : db.seqAhead) : ∀ r ∈ db.rows, r.ID ≠ db.seq := by
  intro r hr
  exact ne_of_lt (h r hr)

theorem handler_getProduct_refused (db : DB) (s : String) (n : Int) (e : String)
    (hid : Atoi s = (n, false)) (h : db.refuse (.selectById n) = some e) :
    App.getProduct db s =
      ({ db with log := db.log ++ [.selectById n] },
       respondWithError StatusInternalServerError e) := by
  unfold App.getProduct
  rw [hid]
  dsimp only
  rw [getProduct_refused _ db e h]
  rfl

theorem handler_getProduct_none (db : DB) (s : String) (n : Int)
    (hid : Atoi s = (n, false)) (h : db.refuse (.selectById n) = none)
    (hf : ∀ r ∈ db.rows, r.ID ≠ n) :
    App.getProduct db s =
      ({ db with log := db.log ++ [.selectById n] },
       respondWithError StatusNotFound "Product not found") := by
  unfold App.getProduct
  rw [hid]
  dsimp only
  rw [getProduct_none _ db h hf]

theorem handler_getProduct_some (db : DB) (s : String) (n : Int)
    (hid : Atoi s = (n, false)) (h : db.refuse (.selectById n) = none)
    (r : Row) (t : List Row) (hf : db.rows.filter (fun r => r.ID == n) = r :: t)
    (f : F32) (hs : scanPrice r.Price = some f) :
    App.getProduct db s =
      ({ db with log := db.log ++ [.selectById n] },
       respondWithJSON StatusOK (.product ⟨n, r.Name, f⟩)) := by
  unfold App.getProduct
  rw [hid]
  dsimp only
  rw [getProduct_some _ db h r t hf f hs]

theorem handler_getProduct_unreadable (db : DB) (s : String) (n : Int)
    (hid : Atoi s = (n, false)) (h : db.refuse (.selectById n) = none)
    (r : Row) (t : List Row) (hf : db.rows.filter (fun r => r.ID == n) = r :: t)
    (hs : scanPrice r.Price = none) :
    App.getProduct db s =
      ({ db with log := db.log ++ [.selectById n] },
       respondWithError StatusInternalServerError scanError) := by
  unfold App.getProduct
  rw [hid]
  dsimp only
  rw [getProduct_unreadable _ db h r t hf hs]
  rfl

/-- The three table invariants, the primary key, "every id was handed out by
the sequence" and "every price is a value of the column type", hold on the empty
table and are kept by every statement the accessor issues, whether the engine
runs it or turns it down. -/
theorem run_keeps_invariants (db : DB) (s : Stmt)
    (hs : db.seqAhead) (hk : db.keyed) (hc : db.inColumn) :
    (db.run s).1.seqAhead ∧ (db.run s).1.keyed ∧ (db.run s).1.inColumn := by
  unfold DB.run
  cases hr : db.refuse s with
  | some e => exact ⟨hs, hk, hc⟩
  | none =>
    dsimp only
    cases s with
    | selectById id => exact ⟨hs, hk, hc⟩
    | selectPage limit offset =>
      unfold DB.apply
      dsimp only
      split_ifs <;> exact ⟨hs, hk, hc⟩
    | selectByName name => exact ⟨hs, hk, hc⟩
    | selectByPrice lo hi => exact ⟨hs, hk, hc⟩
    | update name price id =>
      have hids : (db.rows.map (fun r =>
          if (r.ID == id) = true then { r with Name := name, Price := toNumeric price }
          else r)).map (fun r => r.ID) = db.rows.map (fun r => r.ID) := by
        rw [List.map_map]
        apply List.map_congr_left
        intro r _
        by_cases hrn : r.ID = id
        · simp [hrn]
        · simp [hrn]
      unfold DB.apply
      dsimp only
      split_ifs with hfit
      · exact ⟨hs, hk, hc⟩
      · have hfit1 : fitsColumn (toNumeric price) = true := by simpa using hfit
        refine ⟨?_, ?_, ?_⟩
        · intro r hr1
          have hm : r.ID ∈ db.rows.map (fun r => r.ID) := by
            rw [← hids]
            exact List.mem_map_of_mem _ hr1
          obtain ⟨r0, hr0, hr0id⟩ := List.mem_map.mp hm
          have := hs r0 hr0
          rw [hr0id] at this
          exact this
        · unfold DB.keyed
          dsimp only
          rw [hids]
          exact hk
        · intro r hr1
          obtain ⟨r0, hr0, hr0eq⟩ := List.mem_map.mp hr1
          by_cases hrn : r0.ID = id
          · simp only [hrn, beq_self_eq_true, if_true] at hr0eq
            rw [← hr0eq]
            exact (fitsColumn_iff _).mp hfit1
          · have hb : (r0.ID == id) = false := by simpa using hrn
            simp only [hb, Bool.false_eq_true, if_false] at hr0eq
            rw [← hr0eq]
            exact hc r0 hr0
    | delete id =>
      refine ⟨?_, ?_, ?_⟩
      · intro r hr1
        exact hs r (List.mem_filter.mp hr1).1
      · exact List.Nodup.sublist (List.Sublist.map _ (List.filter_sublist _)) hk
      · intro r hr1
        exact hc r (List.mem_filter.mp hr1).1
    | insert name price =>
      unfold DB.apply
      dsimp only
      split_ifs with hfit hany
      · exact ⟨hs, hk, hc⟩
      · refine ⟨?_, hk, hc⟩
        intro r hr1
        have := hs r hr1
        change r.ID < db.seq + 1
        omega
      · have hfit1 : fitsColumn (toNumeric price) = true := by simpa using hfit
        refine ⟨?_, ?_, ?_⟩
        · intro r hr1
          change r.ID < db.seq + 1
          rcases List.mem_append.mp hr1 with hr2 | hr2
          · have := hs r hr2
            omega
          · have hreq : r = ⟨db.seq, name, toNumeric price⟩ := by simpa using hr2
            rw [hreq]
            dsimp only
            omega
        · unfold DB.keyed
          dsimp only
          rw [List.map_append, List.nodup_append]
          refine ⟨hk, by simp, ?_⟩
          intro a ha hb
          have hb1 : a = db.seq := by simpa using hb
          obtain ⟨r0, hr0, hr0id⟩ := List.mem_map.mp ha
          have := hs r0 hr0
          rw [hr0id, hb1] at this
          exact lt_irrefl _ this
        · intro r hr1
          rcases List.mem_append.mp hr1 with hr2 | hr2
          · exact hc r hr2
          · have hreq : r = ⟨db.seq, name, toNumeric price⟩ := by simpa using hr2
            rw [hreq]
            exact (fitsColumn_iff _).mp hfit1

set_option maxRecDepth 100000 in
/-- Values of the number model on known cases. Reading a decimal into a
`float32`: 0.1, 11.22, 131072.01, a tie (2 ^ 24 + 1 goes to the even
significand), the largest `float32` and the first decimal beyond it. What the
driver sends and what `json.Marshal` writes for the `float32` nearest to 0.1 and
to 131072.09. Bringing a number to two decimals: ties go away from zero. -/
theorem number_model_values :
    parseFloat32 ⟨1, 1⟩ = some ⟨13421773, -27⟩ ∧
    parseFloat32 ⟨1122, 2⟩ = some ⟨11765023, -20⟩ ∧
    parseFloat32 ⟨13107201, 2⟩ = some ⟨8388609, -6⟩ ∧
    parseFloat32 ⟨16777217, 0⟩ = some ⟨1, 24⟩ ∧
    parseFloat32 ⟨16777219, 0⟩ = some ⟨4194305, 2⟩ ∧
    parseFloat32 ⟨340282356779733661637539395458142568447, 0⟩ = some ⟨16777215, 104⟩ ∧
    parseFloat32 ⟨340282356779733661637539395458142568448, 0⟩ = none ∧
    parseFloat32 ⟨-5, 1⟩ = some ⟨-1, -1⟩ ∧
    param64 ⟨13421773, -27⟩ = ⟨10000000149011612, 17⟩ ∧
    jsonNumber ⟨13421773, -27⟩ = ⟨1, 1⟩ ∧
    param64 ⟨4194307, -5⟩ = ⟨13107209375, 5⟩ ∧
    jsonNumber ⟨4194307, -5⟩ = ⟨1310721, 1⟩ ∧
    toNumeric ⟨13107209375, 5⟩ = 13107209 ∧
    toNumeric ⟨125, 3⟩ = 13 ∧ toNumeric ⟨-125, 3⟩ = -13 ∧ toNumeric ⟨124, 3⟩ = 12 ∧
    toNumeric ⟨10000000149011612, 17⟩ = 10 := by
  decide

/-! ## C1: `GET /products` -/

/-- C1, as stated, fails: `start=9223372036854775808` is not a valid `int`
(`Atoi` reports an error), yet the statement issued has `OFFSET
9223372036854775807` rather than the default `0`, and the response is the empty
list where `start=0` lists the stored product. -/
theorem C1_start_beyond_int_range :
    (Atoi "9223372036854775808").2 = true ∧
    (App.getProducts (DB.mk0 [⟨1, "a", 1000⟩] 2) "" "9223372036854775808").1.log
      = [Stmt.selectPage 10 9223372036854775807] ∧
    (App.getProducts (DB.mk0 [⟨1, "a", 1000⟩] 2) "" "9223372036854775808").2
      = respondWithJSON 200 (.products (some [])) ∧
    (App.getProducts (DB.mk0 [⟨1, "a", 1000⟩] 2) "" "0").2
      = respondWithJSON 200 (.products (some [⟨1, "a", ⟨5, 1⟩⟩])) := by
  decide

/-- C1, amended: on a table of the declared column type and an engine that
turns nothing down, `GET /products` issues exactly one statement,
`LIMIT clampCount c OFFSET clampStart s`, where `c` and `s` are the values
`strconv.Atoi` yields for `count` and `start`. The table is unchanged and the
response is 200 with a non-nil slice that holds, for the rows of that page in
table order, the products read from them (id, name, the `float32` nearest to the
stored price): at most `clampCount c` of them, hence at most 10; on an empty
table it is the empty slice. A `count` that `Atoi` rejects gives the limit 10; a
`start` that `Atoi` rejects gives the offset 0 or the largest `int`. As to what
`Atoi` yields: the empty text is rejected with 0; a run of digits, with or
without a leading `+`, yields its value when that is at most the largest `int`
and is otherwise rejected with the largest `int`; a run of digits after `-`
yields minus its value, or is rejected with the smallest `int`; a text that
starts with any other character is rejected with 0. -/
theorem C1_getProducts_page (db : DB) (count start : String)
    (h : db.healthy) (hcol : db.inColumn) :
    (App.getProducts db count start).1.log
      = db.log ++ [Stmt.selectPage (clampCount (Atoi count).1) (clampStart (Atoi start).1)] ∧
    (App.getProducts db count start).1.rows = db.rows ∧
    (∃ ps, List.Forall₂ Reads
        ((db.rows.drop (clampStart (Atoi start).1).toNat).take
          (clampCount (Atoi count).1).toNat) ps ∧
      (App.getProducts db count start).2 = respondWithJSON StatusOK (.products (some ps)) ∧
      ps.length ≤ (clampCount (Atoi count).1).toNat) ∧
    (clampCount (Atoi count).1).toNat ≤ 10 ∧
    ((Atoi count).2 = true → clampCount (Atoi count).1 = 10) ∧
    ((Atoi start).2 = true →
      clampStart (Atoi start).1 = 0 ∨ clampStart (Atoi start).1 = maxInt) ∧
    (db.rows = [] →
      (App.getProducts db count start).2 = respondWithJSON StatusOK (.products (some []))) ∧
    Atoi "" = (0, true) ∧
    (∀ (c : Char) (cs : List Char), (∀ x ∈ c :: cs, isDigit x = true) →
      Atoi (String.mk (c :: cs)) =
        (if digitsValue (c :: cs) ≤ 9223372036854775807
          then ((digitsValue (c :: cs) : Int), false) else (maxInt, true)) ∧
      Atoi (String.mk ('+' :: c :: cs)) =
        (if digitsValue (c :: cs) ≤ 9223372036854775807
          then ((digitsValue (c :: cs) : Int), false) else (maxInt, true)) ∧
      Atoi (String.mk ('-' :: c :: cs)) =
        (if digitsValue (c :: cs) ≤ 9223372036854775808
          then (-(digitsValue (c :: cs) : Int), false) else (minInt, true))) ∧
    (∀ (c : Char) (cs : List Char), isDigit c = false → c ≠ '-' → c ≠ '+' →
      Atoi (String.mk (c :: cs)) = (0, true)) := by
  have hc : (if (Atoi count).1 > 10 ∨ (Atoi count).1 < 1 then 10 else (Atoi count).1)
      = clampCount (Atoi count).1 := by
    unfold clampCount
    split_ifs <;> omega
  have hs : (if (Atoi start).1 < 0 then 0 else (Atoi start).1) = clampStart (Atoi start).1 := by
    unfold clampStart
    split_ifs <;> omega
  have hc0 : 0 ≤ clampCount (Atoi count).1 := by
    unfold clampCount
    split_ifs <;> omega
  have hc10 : clampCount (Atoi count).1 ≤ 10 := by
    unfold clampCount
    split_ifs <;> omega
  have hs0 : 0 ≤ clampStart (Atoi start).1 := by
    unfold clampStart
    split_ifs <;> omega
  have hpage : ∀ r ∈ (db.rows.drop (clampStart (Atoi start).1).toNat).take
      (clampCount (Atoi count).1).toNat, -10000000000 < r.Price ∧ r.Price < 10000000000 :=
    fun r hr => hcol r (List.mem_of_mem_drop (List.mem_of_mem_take hr))
  obtain ⟨ps, hps⟩ := scanRows_exists _ hpage
  have hrun : App.getProducts db count start =
      ({ db with log := db.log ++
          [Stmt.selectPage (clampCount (Atoi count).1) (clampStart (Atoi start).1)] },
        respondWithJSON StatusOK (.products (some ps))) := by
    unfold App.getProducts
    simp only [hc, hs]
    rw [getProducts_ok db _ _ hs0 hc0 (h _) ps hps]
  have hlen : ps.length ≤ (clampCount (Atoi count).1).toNat := by
    rw [← (scanRows_reads _ _ hps).length_eq]
    exact List.length_take_le _ _
  refine ⟨by rw [hrun], by rw [hrun], ⟨ps, scanRows_reads _ _ hps, by rw [hrun], hlen⟩,
    by omega, ?_, ?_, ?_, by decide, ?_, ?_⟩
  · intro he
    rcases Atoi_err_val count he with h0 | h0 | h0 <;> rw [h0] <;> decide
  · intro he
    rcases Atoi_err_val start he with h0 | h0 | h0 <;> rw [h0] <;> decide
  · intro hr
    rw [hr] at hps
    simp only [List.drop_nil, List.take_nil, scanRows, Option.some.injEq] at hps
    rw [hrun, ← hps]
  · intro c cs hd
    exact ⟨Atoi_digits c cs hd, Atoi_plus_digits c cs hd, Atoi_minus_digits c cs hd⟩
  · intro c cs hc1 hm hp
    exact Atoi_other_head c cs hc1 hm hp

/-- Witness of C1 on a table of three products (prices 10, 20 and 11.22):
`count=2&start=1` lists the second and the third. -/
theorem C1_getProducts_page_witness :
    (DB.mk0 [⟨1, "a", 1000⟩, ⟨2, "b", 2000⟩, ⟨3, "c", 1122⟩] 4).healthy ∧
    (DB.mk0 [⟨1, "a", 1000⟩, ⟨2, "b", 2000⟩, ⟨3, "c", 1122⟩] 4).inColumn ∧
    (App.getProducts (DB.mk0 [⟨1, "a", 1000⟩, ⟨2, "b", 2000⟩, ⟨3, "c", 1122⟩] 4)
        "2" "1").1.log
      = [Stmt.selectPage (clampCount (Atoi "2").1) (clampStart (Atoi "1").1)] ∧
    [Stmt.selectPage (clampCount (Atoi "2").1) (clampStart (Atoi "1").1)]
      = [Stmt.selectPage 2 1] ∧
    (App.getProducts (DB.mk0 [⟨1, "a", 1000⟩, ⟨2, "b", 2000⟩, ⟨3, "c", 1122⟩] 4)
        "2" "1").2
      = respondWithJSON StatusOK
          (.products (some [⟨2, "b", ⟨5, 2⟩⟩, ⟨3, "c", ⟨11765023, -20⟩⟩])) :=
  ⟨fun _ => rfl, by unfold DB.inColumn DB.mk0; decide,
   (C1_getProducts_page (DB.mk0 [⟨1, "a", 1000⟩, ⟨2, "b", 2000⟩, ⟨3, "c", 1122⟩] 4) "2" "1"
      (fun _ => rfl) (by unfold DB.inColumn DB.mk0; decide)).1,
   by decide, by decide⟩

/-! ## C2: `POST /product` -/

/-- C2, as stated, fails: the payload price 131072.01 is read into the `float32`
8388609 / 64 = 131072.015625, which the 201 body carries (`json.Marshal` writes
it as 131072.02) and which is stored as 131072.02; at the stored precision the
payload price is 131072.01. -/
theorem C2_price_not_kept :
    (App.createProduct DB.empty (some ⟨0, "x", ⟨13107201, 2⟩⟩)).2
      = respondWithJSON StatusCreated (.product ⟨1, "x", ⟨8388609, -6⟩⟩) ∧
    jsonNumber ⟨8388609, -6⟩ = ⟨13107202, 2⟩ ∧
    (App.createProduct DB.empty (some ⟨0, "x", ⟨13107201, 2⟩⟩)).1.rows
      = [⟨1, "x", 13107202⟩] ∧
    toNumeric ⟨13107201, 2⟩ = 13107201 ∧
    (App.getProduct (App.createProduct DB.empty (some ⟨0, "x", ⟨13107201, 2⟩⟩)).1 "1").2
      = respondWithJSON StatusOK (.product ⟨1, "x", ⟨8388609, -6⟩⟩) ∧
    toNumeric (jsonNumber ⟨8388609, -6⟩) ≠ toNumeric ⟨13107201, 2⟩ := by
  decide

/-- C2, amended: on a table whose ids were handed out by the sequence, and an
engine that turns nothing down, `POST /product` with a body whose price reads
into the `float32` `f` and, brought to two decimals, fits the column, appends one
row and answers 201 with the id taken from the sequence, the name of the body and
the price `f` (the id is 1 on the empty table with a fresh sequence). The price
stored is `f` as the driver sends it, brought to two decimals; it is the price of
the body at two decimals whenever that rounding of `f` gives it. The accessor
`getProduct` and `GET /product/{id}` with that id then yield the name of the body
and the `float32` nearest to the stored price; in particular they yield `f` again
when `f` is that `float32`. -/
theorem C2_create_then_get (db : DB) (b : ProductBody) (f : F32) (s : String)
    (h : db.healthy) (hs : db.seqAhead) (hid : Atoi s = (db.seq, false))
    (hf : parseFloat32 b.price = some f)
    (hfit : fitsColumn (toNumeric (param64 f)) = true) :
    (App.createProduct db (some b)).2
      = respondWithJSON StatusCreated (.product ⟨db.seq, b.name, f⟩) ∧
    (App.createProduct db (some b)).1.rows
      = db.rows ++ [⟨db.seq, b.name, toNumeric (param64 f)⟩] ∧
    (db.rows = [] → db.seq = 1 →
      (App.createProduct db (some b)).2
        = respondWithJSON StatusCreated (.product ⟨1, b.name, f⟩)) ∧
    (toNumeric (param64 f) = toNumeric b.price →
      (App.createProduct db (some b)).1.rows
        = db.rows ++ [⟨db.seq, b.name, toNumeric b.price⟩]) ∧
    (∃ g : F32, scanPrice (toNumeric (param64 f)) = some g) ∧
    (∀ g : F32, scanPrice (toNumeric (param64 f)) = some g →
      (∀ q : Product, q.ID = db.seq →
        (Product.getProduct q (App.createProduct db (some b)).1).2
          = (⟨db.seq, b.name, g⟩, none)) ∧
      (App.getProduct (App.createProduct db (some b)).1 s).2
        = respondWithJSON StatusOK (.product ⟨db.seq, b.name, g⟩)) := by
  have hfresh := seqAhead_fresh db hs
  have hdec : decodeProduct (some b) = some ⟨b.id, b.name, f⟩ := by
    simp [decodeProduct, hf]
  have hc : App.createProduct db (some b) =
      ({ db with rows := db.rows ++ [⟨db.seq, b.name, toNumeric (param64 f)⟩],
                 seq := db.seq + 1,
                 log := db.log ++ [.insert b.name (param64 f)] },
       respondWithJSON StatusCreated (.product ⟨db.seq, b.name, f⟩)) := by
    unfold App.createProduct
    rw [hdec]
    dsimp only
    rw [createProduct_ok ⟨b.id, b.name, f⟩ db (h _) hfit hfresh]
  have hfil : (db.rows ++ [(⟨db.seq, b.name, toNumeric (param64 f)⟩ : Row)]).filter
      (fun r => r.ID == db.seq) = [⟨db.seq, b.name, toNumeric (param64 f)⟩] := by
    have hnil : db.rows.filter (fun r => r.ID == db.seq) = [] := by
      rw [List.filter_eq_nil_iff]
      intro r hr
      simpa using hfresh r hr
    simp [List.filter_append, hnil, List.filter_cons]
  rw [hc]
  refine ⟨rfl, rfl, ?_, ?_, ?_, ?_⟩
  · intro _ h1
    rw [h1]
  · intro h1
    rw [h1]
  · exact scanPrice_isSome _ ((fitsColumn_iff _).mp hfit).1 ((fitsColumn_iff _).mp hfit).2
  · intro g hg
    constructor
    · intro q hq
      have := getProduct_some q
        { db with rows := db.rows ++ [⟨db.seq, b.name, toNumeric (param64 f)⟩],
                  seq := db.seq + 1,
                  log := db.log ++ [.insert b.name (param64 f)] }
        (h _) ⟨db.seq, b.name, toNumeric (param64 f)⟩ [] (by rw [hq]; exact hfil) g hg
      rw [this]
      simp [hq]
    · have := handler_getProduct_some
        { db with rows := db.rows ++ [⟨db.seq, b.name, toNumeric (param64 f)⟩],
                  seq := db.seq + 1,
                  log := db.log ++ [.insert b.name (param64 f)] }
        s db.seq hid (h _) ⟨db.seq, b.name, toNumeric (param64 f)⟩ [] hfil g hg
      rw [this]

/-- Witness of C2: the payload of the test `TestCreateProduct` (price 11.22) on
the empty table gets id 1, is stored at 11.22 and is read back by
`GET /product/1` with the price of the 201 body. -/
theorem C2_create_then_get_witness :
    DB.empty.healthy ∧ DB.empty.seqAhead ∧ Atoi "1" = (DB.empty.seq, false) ∧
    parseFloat32 ⟨1122, 2⟩ = some ⟨11765023, -20⟩ ∧
    fitsColumn (toNumeric (param64 ⟨11765023, -20⟩)) = true ∧
    toNumeric (param64 ⟨11765023, -20⟩) = toNumeric ⟨1122, 2⟩ ∧
    scanPrice (toNumeric (param64 ⟨11765023, -20⟩)) = some ⟨11765023, -20⟩ ∧
    jsonNumber ⟨11765023, -20⟩ = ⟨1122, 2⟩ ∧
    (App.createProduct DB.empty (some ⟨0, "test product", ⟨1122, 2⟩⟩)).2
      = respondWithJSON StatusCreated (.product ⟨1, "test product", ⟨11765023, -20⟩⟩) ∧
    (App.createProduct DB.empty (some ⟨0, "test product", ⟨1122, 2⟩⟩)).1.rows
      = DB.empty.rows ++ [⟨1, "test product", toNumeric ⟨1122, 2⟩⟩] ∧
    (App.getProduct (App.createProduct DB.empty (some ⟨0, "test product", ⟨1122, 2⟩⟩)).1
        "1").2
      = respondWithJSON StatusOK (.product ⟨1, "test product", ⟨11765023, -20⟩⟩) :=
  ⟨fun _ => rfl, seqAhead_mk0_nil 1, by decide, by decide, by decide, by decide, by decide,
   by decide,
   (C2_create_then_get DB.empty ⟨0, "test product", ⟨1122, 2⟩⟩ ⟨11765023, -20⟩ "1"
      (fun _ => rfl) (seqAhead_mk0_nil 1) (by decide) (by decide) (by decide)).1,
   (C2_create_then_get DB.empty ⟨0, "test product", ⟨1122, 2⟩⟩ ⟨11765023, -20⟩ "1"
      (fun _ => rfl) (seqAhead_mk0_nil 1) (by decide) (by decide) (by decide)).2.2.2.1
      (by decide),
   ((C2_create_then_get DB.empty ⟨0, "test product", ⟨1122, 2⟩⟩ ⟨11765023, -20⟩ "1"
      (fun _ => rfl) (seqAhead_mk0_nil 1) (by decide) (by decide) (by decide)).2.2.2.2.2
      ⟨11765023, -20⟩ (by decide)).2⟩

/-! ## C3: `DELETE /product/{id}` -/

/-- C3: for a path id that converts to the integer `n` and an engine that turns
nothing down, `DELETE /product/{id}` answers 200 with the map `result: success`
whether or not a row with id `n` was stored, removes exactly the rows with id
`n`, and afterwards the accessor `getProduct` reports `sql.ErrNoRows` and
`GET /product/{id}` answers 404 `Product not found`. -/
theorem C3_delete_then_get (db : DB) (s : String) (n : Int)
    (hid : Atoi s = (n, false)) (h : db.healthy) :
    (App.deleteProduct db s).2 = respondWithJSON StatusOK .resultSuccess ∧
    (App.deleteProduct db s).1.rows = db.rows.filter (fun r => !(r.ID == n)) ∧
    (∀ r ∈ (App.deleteProduct db s).1.rows, r.ID ≠ n) ∧
    (∀ q : Product, q.ID = n →
      (Product.getProduct q (App.deleteProduct db s).1).2.2 = some .ErrNoRows) ∧
    (App.getProduct (App.deleteProduct db s).1 s).2
      = respondWithError StatusNotFound "Product not found" := by
  have hd : App.deleteProduct db s =
      ({ db with rows := db.rows.filter (fun r => !(r.ID == n)),
                 log := db.log ++ [.delete n] },
       respondWithJSON StatusOK .resultSuccess) := by
    unfold App.deleteProduct
    rw [hid]
    dsimp only
    have hz : ({ Product.zero with ID := n } : Product).ID = n := rfl
    simp [Product.deleteProduct, hz, run_applied db _ (h (.delete n)), DB.apply]
  have hgone : ∀ r ∈ db.rows.filter (fun r => !(r.ID == n)), r.ID ≠ n := by
    intro r hr
    rw [List.mem_filter] at hr
    simpa using hr.2
  rw [hd]
  refine ⟨rfl, rfl, hgone, ?_, ?_⟩
  · intro q hq
    have := getProduct_none q
      { db with rows := db.rows.filter (fun r => !(r.ID == n)), log := db.log ++ [.delete n] }
      (h _) (by rw [hq]; exact hgone)
    rw [this]
  · have := handler_getProduct_none
      { db with rows := db.rows.filter (fun r => !(r.ID == n)), log := db.log ++ [.delete n] }
      s n hid (h _) hgone
    rw [this]

/-- Witness of C3: deleting the stored product 1, and deleting the absent
product 7, both answer 200 and leave the id without a row. -/
theorem C3_delete_then_get_witness :
    Atoi "7" = (7, false) ∧ (DB.mk0 [⟨1, "a", 10⟩] 2).healthy ∧
    (App.deleteProduct (DB.mk0 [⟨1, "a", 10⟩] 2) "7").2
      = respondWithJSON StatusOK .resultSuccess ∧
    (App.getProduct (App.deleteProduct (DB.mk0 [⟨1, "a", 10⟩] 2) "7").1 "7").2
      = respondWithError StatusNotFound "Product not found" ∧
    (App.deleteProduct (DB.mk0 [⟨1, "a", 10⟩] 2) "1").1.rows = [] :=
  ⟨by decide, fun _ => rfl,
   (C3_delete_then_get (DB.mk0 [⟨1, "a", 10⟩] 2) "7" 7 (by decide) (fun _ => rfl)).1,
   (C3_delete_then_get (DB.mk0 [⟨1, "a", 10⟩] 2) "7" 7 (by decide) (fun _ => rfl)).2.2.2.2,
   by decide⟩

/-! ## C4: `GET /product/{id}` -/

/-- C4, as stated, fails in its last part: the product stored with the price
131072.09 is answered with the `float32` 4194307 / 32 = 131072.09375, which
`json.Marshal` writes as 131072.1; at two decimals that is 131072.10, not the
stored price. -/
theorem C4_price_not_as_stored :
    (App.getProduct (DB.mk0 [⟨1, "a", 13107209⟩] 2) "1").2
      = respondWithJSON StatusOK (.product ⟨1, "a", ⟨4194307, -5⟩⟩) ∧
    jsonNumber ⟨4194307, -5⟩ = ⟨1310721, 1⟩ ∧
    toNumeric (jsonNumber ⟨4194307, -5⟩) = 13107210 ∧
    toNumeric (jsonNumber ⟨4194307, -5⟩) ≠ 13107209 := by
  decide

/-- C4, amended: for a path id that converts to the integer `n`,
`GET /product/{id}` answers 404 `Product not found` exactly when the accessor
reports `sql.ErrNoRows`, which it does exactly when the engine runs the query and
no row has id `n`; it answers 500 with the error text on any other error of the
accessor; otherwise it answers 200 with the product read from a stored row of id
`n`: the id `n`, the name of the row and the `float32` nearest to its price (with
the primary key in force the row is the one with id `n`, and on a table of the
declared column type reading it does not fail). The table is unchanged. -/
theorem C4_getProduct_status (db : DB) (s : String) (n : Int) (hid : Atoi s = (n, false)) :
    ((App.getProduct db s).2 = respondWithError StatusNotFound "Product not found" ↔
      (Product.getProduct { Product.zero with ID := n } db).2.2 = some .ErrNoRows) ∧
    ((Product.getProduct { Product.zero with ID := n } db).2.2 = some .ErrNoRows ↔
      db.refuse (.selectById n) = none ∧ ∀ r ∈ db.rows, r.ID ≠ n) ∧
    (∀ e, (Product.getProduct { Product.zero with ID := n } db).2.2 = some (.driver e) →
      (App.getProduct db s).2 = respondWithError StatusInternalServerError e) ∧
    ((Product.getProduct { Product.zero with ID := n } db).2.2 = none →
      ∃ r ∈ db.rows, r.ID = n ∧ ∃ f, scanPrice r.Price = some f ∧
        (App.getProduct db s).2 = respondWithJSON StatusOK (.product ⟨n, r.Name, f⟩)) ∧
    (db.keyed → db.refuse (.selectById n) = none → ∀ r ∈ db.rows, r.ID = n →
      ∀ f, scanPrice r.Price = some f →
        (App.getProduct db s).2 = respondWithJSON StatusOK (.product ⟨n, r.Name, f⟩)) ∧
    (db.keyed → db.inColumn → db.refuse (.selectById n) = none → ∀ r ∈ db.rows, r.ID = n →
      ∃ f, scanPrice r.Price = some f ∧
        (App.getProduct db s).2 = respondWithJSON StatusOK (.product ⟨n, r.Name, f⟩)) ∧
    (App.getProduct db s).1.rows = db.rows := by
  have hz : ({ Product.zero with ID := n } : Product).ID = n := rfl
  have hkeyed : db.keyed → db.refuse (.selectById n) = none → ∀ r ∈ db.rows, r.ID = n →
      ∀ f, scanPrice r.Price = some f →
        (App.getProduct db s).2 = respondWithJSON StatusOK (.product ⟨n, r.Name, f⟩) := by
    intro hk hr r hr1 hrn f hf
    have hone := filter_id_keyed db.rows hk r hr1
    rw [hrn] at hone
    rw [handler_getProduct_some db s n hid hr r [] hone f hf]
  have hcolumn : db.keyed → db.inColumn → db.refuse (.selectById n) = none →
      ∀ r ∈ db.rows, r.ID = n → ∃ f, scanPrice r.Price = some f ∧
        (App.getProduct db s).2 = respondWithJSON StatusOK (.product ⟨n, r.Name, f⟩) := by
    intro hk hcol hr r hr1 hrn
    obtain ⟨f, hf⟩ := scanPrice_isSome r.Price (hcol r hr1).1 (hcol r hr1).2
    exact ⟨f, hf, hkeyed hk hr r hr1 hrn f hf⟩
  have hmain :
      ((App.getProduct db s).2 = respondWithError StatusNotFound "Product not found" ↔
        (Product.getProduct { Product.zero with ID := n } db).2.2 = some .ErrNoRows) ∧
      ((Product.getProduct { Product.zero with ID := n } db).2.2 = some .ErrNoRows ↔
        db.refuse (.selectById n) = none ∧ ∀ r ∈ db.rows, r.ID ≠ n) ∧
      (∀ e, (Product.getProduct { Product.zero with ID := n } db).2.2 = some (.driver e) →
        (App.getProduct db s).2 = respondWithError StatusInternalServerError e) ∧
      ((Product.getProduct { Product.zero with ID := n } db).2.2 = none →
        ∃ r ∈ db.rows, r.ID = n ∧ ∃ f, scanPrice r.Price = some f ∧
          (App.getProduct db s).2 = respondWithJSON StatusOK (.product ⟨n, r.Name, f⟩)) ∧
      (App.getProduct db s).1.rows = db.rows := by
    cases hr : db.refuse (.selectById n) with
    | some e =>
      rw [handler_getProduct_refused db s n e hid hr,
        getProduct_refused { Product.zero with ID := n } db e hr]
      refine ⟨?_, ?_, ?_, ?_, rfl⟩
      · simp [respondWithError, respondWithJSON, StatusInternalServerError, StatusNotFound]
      · simp
      · intro e1 he1
        simp only [Option.some.injEq, DBError.driver.injEq] at he1
        rw [he1]
      · intro hc
        simp at hc
    | none =>
      cases hf : db.rows.filter (fun r => r.ID == n) with
      | nil =>
        have hno : ∀ r ∈ db.rows, r.ID ≠ n := by
          intro r hr1
          have := (List.filter_eq_nil_iff.mp hf) r hr1
          simpa using this
        rw [handler_getProduct_none db s n hid hr hno,
          getProduct_none { Product.zero with ID := n } db hr hno]
        refine ⟨by simp, by simpa using hno, ?_, ?_, rfl⟩
        · intro e1 he1
          simp at he1
        · intro hc
          simp at hc
      | cons r t =>
        have hmem := filter_id_head db.rows n r t hf
        cases hsc : scanPrice r.Price with
        | none =>
          rw [handler_getProduct_unreadable db s n hid hr r t hf hsc,
            getProduct_unreadable { Product.zero with ID := n } db hr r t hf hsc]
          refine ⟨?_, ?_, ?_, ?_, rfl⟩
          · simp [respondWithError, respondWithJSON, StatusInternalServerError, StatusNotFound]
          · constructor
            · intro hc
              simp at hc
            · intro hc
              exact absurd hmem.2 (hc.2 r hmem.1)
          · intro e1 he1
            simp only [Option.some.injEq, DBError.driver.injEq] at he1
            rw [he1]
          · intro hc
            simp at hc
        | some f =>
          rw [handler_getProduct_some db s n hid hr r t hf f hsc,
            getProduct_some { Product.zero with ID := n } db hr r t hf f hsc]
          refine ⟨?_, ?_, ?_, ?_, rfl⟩
          · simp [respondWithError, respondWithJSON, StatusOK, StatusNotFound]
          · constructor
            · intro hc
              simp at hc
            · intro hc
              exact absurd hmem.2 (hc.2 r hmem.1)
          · intro e1 he1
            simp at he1
          · intro _
            exact ⟨r, hmem.1, hmem.2, f, hsc, rfl⟩
  exact ⟨hmain.1, hmain.2.1, hmain.2.2.1, hmain.2.2.2.1, hkeyed, hcolumn, hmain.2.2.2.2⟩

/-- Witness of C4: with products 1 and 2 stored, `GET /product/2` answers 200
with product 2 and `GET /product/7` answers 404. -/
theorem C4_getProduct_status_witness :
    Atoi "2" = (2, false) ∧
    (App.getProduct (DB.mk0 [⟨1, "a", 1000⟩, ⟨2, "b", 1122⟩] 3) "2").1.rows
      = [⟨1, "a", 1000⟩, ⟨2, "b", 1122⟩] ∧
    (App.getProduct (DB.mk0 [⟨1, "a", 1000⟩, ⟨2, "b", 1122⟩] 3) "2").2
      = respondWithJSON StatusOK (.product ⟨2, "b", ⟨11765023, -20⟩⟩) ∧
    jsonNumber ⟨11765023, -20⟩ = ⟨1122, 2⟩ ∧
    (App.getProduct (DB.mk0 [⟨1, "a", 1000⟩, ⟨2, "b", 1122⟩] 3) "7").2
      = respondWithError StatusNotFound "Product not found" :=
  ⟨by decide,
   (C4_getProduct_status (DB.mk0 [⟨1, "a", 1000⟩, ⟨2, "b", 1122⟩] 3) "2" 2
      (by decide)).2.2.2.2.2.2,
   (C4_getProduct_status (DB.mk0 [⟨1, "a", 1000⟩, ⟨2, "b", 1122⟩] 3) "2" 2
      (by decide)).2.2.2.2.1 (by unfold DB.keyed DB.mk0; decide) rfl
      ⟨2, "b", 1122⟩ (by unfold DB.mk0; decide) rfl ⟨11765023, -20⟩ (by decide),
   by decide, by decide⟩

/-! ## C5: `POST /product/duplicate` -/

/-- C5, as stated, fails: with the origin stored at the price 131072.01, the copy
is stored at 131072.02 and the 201 body carries the `float32` 131072.015625, which
`json.Marshal` writes as 131072.02: the price of the copy is not the price of the
origin. -/
theorem C5_price_not_copied :
    (App.duplicateProduct (DB.mk0 [⟨1, "A", 13107201⟩] 2) (some ⟨1, "B"⟩)).1.rows
      = [⟨1, "A", 13107201⟩, ⟨2, "B", 13107202⟩] ∧
    (App.duplicateProduct (DB.mk0 [⟨1, "A", 13107201⟩] 2) (some ⟨1, "B"⟩)).2
      = respondWithJSON StatusCreated (.product ⟨2, "B", ⟨8388609, -6⟩⟩) ∧
    jsonNumber ⟨8388609, -6⟩ = ⟨13107202, 2⟩ := by
  decide

/-- C5, amended: on a table with its primary key, whose ids were handed out by
the sequence, and an engine that turns nothing down: when a product `o` with id
`originId` is stored, its price reads into the `float32` `f` (as every price of
the declared column type does) and `f`, brought to two decimals, fits the column,
`POST /product/duplicate` appends exactly one row, with the name `newName`, the next id of the sequence, which differs from
`originId` and from every stored id, and the price `f` as the driver sends it,
brought to two decimals, which is the price of `o` whenever that rounding of `f`
gives it; it keeps every stored row (the origin included) and answers 201 with
the new id, `newName` and `f`. When no stored product has id `originId`, it
answers 404 `Product not found`, and rows and sequence are unchanged. -/
theorem C5_duplicate (db : DB) (req : ProductDuplicateRequest)
    (h : db.healthy) (hs : db.seqAhead) (hk : db.keyed) :
    (∀ o ∈ db.rows, o.ID = req.OriginId → ∀ f, scanPrice o.Price = some f →
      fitsColumn (toNumeric (param64 f)) = true →
      (App.duplicateProduct db (some req)).2
        = respondWithJSON StatusCreated (.product ⟨db.seq, req.NewName, f⟩) ∧
      (App.duplicateProduct db (some req)).1.rows
        = db.rows ++ [⟨db.seq, req.NewName, toNumeric (param64 f)⟩] ∧
      db.seq ≠ req.OriginId ∧ (∀ r ∈ db.rows, r.ID ≠ db.seq) ∧
      o ∈ (App.duplicateProduct db (some req)).1.rows ∧
      (toNumeric (param64 f) = o.Price →
        (App.duplicateProduct db (some req)).1.rows
          = db.rows ++ [⟨db.seq, req.NewName, o.Price⟩])) ∧
    (db.inColumn → ∀ o ∈ db.rows, ∃ f, scanPrice o.Price = some f) ∧
    ((∀ r ∈ db.rows, r.ID ≠ req.OriginId) →
      (App.duplicateProduct db (some req)).2
        = respondWithError StatusNotFound "Product not found" ∧
      (App.duplicateProduct db (some req)).1.rows = db.rows ∧
      (App.duplicateProduct db (some req)).1.seq = db.seq) := by
  have hfresh := seqAhead_fresh db hs
  refine ⟨?_, ?_, ?_⟩
  · intro o ho hoid f hsc hfit
    have hfil : db.rows.filter (fun r => r.ID == req.OriginId) = [o] := by
      rw [← hoid]
      exact filter_id_keyed db.rows hk o ho
    have hg := getProduct_some { Product.zero with ID := req.OriginId } db (h _) o [] hfil
      f hsc
    have hc := createProduct_ok
      { Product.zero with Name := req.NewName, Price := f }
      { db with log := db.log ++ [.selectById req.OriginId] } (h _) hfit hfresh
    have hd : App.duplicateProduct db (some req) =
        ({ db with rows := db.rows ++ [⟨db.seq, req.NewName, toNumeric (param64 f)⟩],
                   seq := db.seq + 1,
                   log := db.log ++ [.selectById req.OriginId] ++
                     [.insert req.NewName (param64 f)] },
         respondWithJSON StatusCreated (.product ⟨db.seq, req.NewName, f⟩)) := by
      unfold App.duplicateProduct
      dsimp only
      rw [hg]
      dsimp only
      rw [hc]
    rw [hd]
    refine ⟨rfl, rfl, ?_, hfresh, ?_, ?_⟩
    · intro heq
      exact hfresh o ho (hoid.trans heq.symm)
    · exact List.mem_append_left _ ho
    · intro h1
      dsimp only
      rw [h1]
  · intro hcol o ho
    exact scanPrice_isSome o.Price (hcol o ho).1 (hcol o ho).2
  · intro hno
    have hg := getProduct_none { Product.zero with ID := req.OriginId } db (h _) hno
    have hd : App.duplicateProduct db (some req) =
        ({ db with log := db.log ++ [.selectById req.OriginId] },
         respondWithError StatusNotFound "Product not found") := by
      unfold App.duplicateProduct
      dsimp only
      rw [hg]
    rw [hd]
    exact ⟨rfl, rfl, rfl⟩

/-- Witness of C5: the tables of `TestDuplicateProduct` and of
`TestDuplicateProduct_NotExisting_ShouldReturn404` (prices 12.34, 55, 100). -/
theorem C5_duplicate_witness :
    (DB.mk0 [⟨1, "Testproduct 1", 1234⟩, ⟨2, "Testproduct 2", 5500⟩,
      ⟨3, "Testproduct 3", 10000⟩] 4).healthy ∧
    (DB.mk0 [⟨1, "Testproduct 1", 1234⟩, ⟨2, "Testproduct 2", 5500⟩,
      ⟨3, "Testproduct 3", 10000⟩] 4).seqAhead ∧
    (DB.mk0 [⟨1, "Testproduct 1", 1234⟩, ⟨2, "Testproduct 2", 5500⟩,
      ⟨3, "Testproduct 3", 10000⟩] 4).keyed ∧
    scanPrice 1234 = some ⟨3234857, -18⟩ ∧
    toNumeric (param64 ⟨3234857, -18⟩) = 1234 ∧
    jsonNumber ⟨3234857, -18⟩ = ⟨1234, 2⟩ ∧
    (App.duplicateProduct (DB.mk0 [⟨1, "Testproduct 1", 1234⟩, ⟨2, "Testproduct 2", 5500⟩,
      ⟨3, "Testproduct 3", 10000⟩] 4) (some ⟨1, "duplicate 1"⟩)).2
      = respondWithJSON StatusCreated (.product ⟨4, "duplicate 1", ⟨3234857, -18⟩⟩) ∧
    (App.duplicateProduct (DB.mk0 [⟨1, "Testproduct 1", 1234⟩, ⟨2, "Testproduct 2", 5500⟩,
      ⟨3, "Testproduct 3", 10000⟩] 4) (some ⟨1, "duplicate 1"⟩)).1.rows
      = (DB.mk0 [⟨1, "Testproduct 1", 1234⟩, ⟨2, "Testproduct 2", 5500⟩,
          ⟨3, "Testproduct 3", 10000⟩] 4).rows ++ [⟨4, "duplicate 1", 1234⟩] ∧
    (App.duplicateProduct (DB.mk0 [⟨1, "Testproduct 1", 1234⟩, ⟨2, "Testproduct 2", 5500⟩,
      ⟨3, "Testproduct 3", 10000⟩] 4) (some ⟨5, "duplicate 1"⟩)).2
      = respondWithError StatusNotFound "Product not found" :=
  ⟨fun _ => rfl, by unfold DB.seqAhead DB.mk0; decide, by unfold DB.keyed DB.mk0; decide,
   by decide, by decide, by decide,
   ((C5_duplicate (DB.mk0 [⟨1, "Testproduct 1", 1234⟩, ⟨2, "Testproduct 2", 5500⟩,
      ⟨3, "Testproduct 3", 10000⟩] 4) ⟨1, "duplicate 1"⟩ (fun _ => rfl)
      (by unfold DB.seqAhead DB.mk0; decide) (by unfold DB.keyed DB.mk0; decide)).1
      ⟨1, "Testproduct 1", 1234⟩ (by unfold DB.mk0; decide) rfl
      ⟨3234857, -18⟩ (by decide) (by decide)).1,
   ((C5_duplicate (DB.mk0 [⟨1, "Testproduct 1", 1234⟩, ⟨2, "Testproduct 2", 5500⟩,
      ⟨3, "Testproduct 3", 10000⟩] 4) ⟨1, "duplicate 1"⟩ (fun _ => rfl)
      (by unfold DB.seqAhead DB.mk0; decide) (by unfold DB.keyed DB.mk0; decide)).1
      ⟨1, "Testproduct 1", 1234⟩ (by unfold DB.mk0; decide) rfl
      ⟨3234857, -18⟩ (by decide) (by decide)).2.2.2.2.2 (by decide),
   ((C5_duplicate (DB.mk0 [⟨1, "Testproduct 1", 1234⟩, ⟨2, "Testproduct 2", 5500⟩,
      ⟨3, "Testproduct 3", 10000⟩] 4) ⟨5, "duplicate 1"⟩ (fun _ => rfl)
      (by unfold DB.seqAhead DB.mk0; decide) (by unfold DB.keyed DB.mk0; decide)).2.2
      (by unfold DB.mk0; decide)).1⟩

/-! ## C6: `POST /product/filterByName` -/

/-- C6, as stated, fails: the one product named `x` is stored with the price
131072.09 and is returned with the `float32` 131072.09375, which `json.Marshal`
writes as 131072.1; the product returned is not the stored product. -/
theorem C6_price_not_as_stored :
    (App.filterByName (DB.mk0 [⟨1, "x", 13107209⟩] 2) (some ⟨"x"⟩)).2
      = respondWithJSON StatusOK (.products (some [⟨1, "x", ⟨4194307, -5⟩⟩])) ∧
    jsonNumber ⟨4194307, -5⟩ = ⟨1310721, 1⟩ ∧
    toNumeric (jsonNumber ⟨4194307, -5⟩) ≠ 13107209 := by
  decide

/-- C6, amended: on a table of the declared column type and an engine that turns
nothing down, `getProductsByName` and `POST /product/filterByName` return, for
the stored rows whose name equals the given string, none missing and none extra,
in the order of the table, the products read from them (id, name, the `float32`
nearest to the stored price), and the table is unchanged; the answer is 200, with
the empty non-nil slice when no name matches. A product created afterwards is
listed after all earlier ones. -/
theorem C6_filterByName (db : DB) (name : String) (h : db.healthy) (hcol : db.inColumn) :
    (∃ ps, List.Forall₂ Reads (db.rows.filter (fun r => r.Name == name)) ps ∧
      (getProductsByName db name).2 = (some ps, none) ∧
      (App.filterByName db (some ⟨name⟩)).2
        = respondWithJSON StatusOK (.products (some ps))) ∧
    (App.filterByName db (some ⟨name⟩)).1.rows = db.rows ∧
    (∀ r, r ∈ db.rows.filter (fun r => r.Name == name) ↔ r ∈ db.rows ∧ r.Name = name) ∧
    (db.rows.filter (fun r => r.Name == name)).Sublist db.rows ∧
    ((∀ r ∈ db.rows, r.Name ≠ name) →
      (App.filterByName db (some ⟨name⟩)).2 = respondWithJSON StatusOK (.products (some []))) ∧
    (∀ (b : ProductBody) (f : F32), parseFloat32 b.price = some f → db.seqAhead →
      fitsColumn (toNumeric (param64 f)) = true →
      ∃ ps, List.Forall₂ Reads
          (db.rows.filter (fun r => r.Name == name) ++
            if b.name = name then [⟨db.seq, b.name, toNumeric (param64 f)⟩] else []) ps ∧
        (App.filterByName (App.createProduct db (some b)).1 (some ⟨name⟩)).2
          = respondWithJSON StatusOK (.products (some ps))) := by
  have hacc : ∀ d : DB, d.healthy → ∀ ps, scanRows (d.rows.filter (fun r => r.Name == name))
      = some ps → getProductsByName d name =
      ({ d with log := d.log ++ [.selectByName name] }, some ps, none) := by
    intro d hd ps hps
    unfold getProductsByName
    rw [run_applied d _ (hd _)]
    exact collect_ok _ _ _ hps
  have hh : ∀ d : DB, d.healthy → ∀ ps, scanRows (d.rows.filter (fun r => r.Name == name))
      = some ps → App.filterByName d (some ⟨name⟩) =
      ({ d with log := d.log ++ [.selectByName name] },
       respondWithJSON StatusOK (.products (some ps))) := by
    intro d hd ps hps
    unfold App.filterByName
    dsimp only
    rw [hacc d hd ps hps]
  have hsub : ∀ r ∈ db.rows.filter (fun r => r.Name == name),
      -10000000000 < r.Price ∧ r.Price < 10000000000 :=
    fun r hr => hcol r (List.mem_filter.mp hr).1
  obtain ⟨ps, hps⟩ := scanRows_exists _ hsub
  refine ⟨⟨ps, scanRows_reads _ _ hps, by rw [hacc db h ps hps], by rw [hh db h ps hps]⟩,
    by rw [hh db h ps hps], ?_, List.filter_sublist _, ?_, ?_⟩
  · intro r
    simp [List.mem_filter]
  · intro hno
    have hnil : db.rows.filter (fun r => r.Name == name) = [] := by
      rw [List.filter_eq_nil_iff]
      intro r hr
      simpa using hno r hr
    have hps2 := hps
    rw [hnil] at hps2
    simp only [scanRows, Option.some.injEq] at hps2
    rw [hh db h ps hps, ← hps2]
  · intro b f hf hs hfit
    have hdec : decodeProduct (some b) = some ⟨b.id, b.name, f⟩ := by
      simp [decodeProduct, hf]
    have hc : App.createProduct db (some b) =
        ({ db with rows := db.rows ++ [⟨db.seq, b.name, toNumeric (param64 f)⟩],
                   seq := db.seq + 1,
                   log := db.log ++ [.insert b.name (param64 f)] },
         respondWithJSON StatusCreated (.product ⟨db.seq, b.name, f⟩)) := by
      unfold App.createProduct
      rw [hdec]
      dsimp only
      rw [createProduct_ok ⟨b.id, b.name, f⟩ db (h _) hfit (seqAhead_fresh db hs)]
    have hfil : (db.rows ++ [(⟨db.seq, b.name, toNumeric (param64 f)⟩ : Row)]).filter
        (fun r => r.Name == name) = db.rows.filter (fun r => r.Name == name) ++
          if b.name = name then [⟨db.seq, b.name, toNumeric (param64 f)⟩] else [] := by
      by_cases hn : b.name = name
      · simp [List.filter_append, List.filter_cons, hn]
      · simp [List.filter_append, List.filter_cons, hn]
    have hsub2 : ∀ r ∈ (db.rows ++ [(⟨db.seq, b.name, toNumeric (param64 f)⟩ : Row)]).filter
        (fun r => r.Name == name), -10000000000 < r.Price ∧ r.Price < 10000000000 := by
      intro r hr
      rcases List.mem_append.mp (List.mem_filter.mp hr).1 with h1 | h1
      · exact hcol r h1
      · have hreq : r = ⟨db.seq, b.name, toNumeric (param64 f)⟩ := by simpa using h1
        rw [hreq]
        exact (fitsColumn_iff _).mp hfit
    obtain ⟨qs, hqs⟩ := scanRows_exists _ hsub2
    refine ⟨qs, ?_, ?_⟩
    · rw [← hfil]
      exact scanRows_reads _ _ hqs
    · rw [hc]
      dsimp only
      rw [hh { db with rows := db.rows ++ [⟨db.seq, b.name, toNumeric (param64 f)⟩],
                       seq := db.seq + 1,
                       log := db.log ++ [.insert b.name (param64 f)] } (fun s => h s) qs hqs]

/-- Witness of C6: the table of `TestGetProductsByName`; the name `Testproduct`
matches the first and the fourth product only, in that order, and neither a
different case nor a part of the name matches. -/
theorem C6_filterByName_witness :
    (DB.mk0 [⟨1, "Testproduct", 1234⟩, ⟨2, "Testproduct 2", 1235⟩,
      ⟨3, "Testproduct 3", 1236⟩, ⟨4, "Testproduct", 1250⟩] 5).healthy ∧
    (DB.mk0 [⟨1, "Testproduct", 1234⟩, ⟨2, "Testproduct 2", 1235⟩,
      ⟨3, "Testproduct 3", 1236⟩, ⟨4, "Testproduct", 1250⟩] 5).inColumn ∧
    (App.filterByName (DB.mk0 [⟨1, "Testproduct", 1234⟩, ⟨2, "Testproduct 2", 1235⟩,
      ⟨3, "Testproduct 3", 1236⟩, ⟨4, "Testproduct", 1250⟩] 5) (some ⟨"Testproduct"⟩)).1.rows
      = [⟨1, "Testproduct", 1234⟩, ⟨2, "Testproduct 2", 1235⟩,
      ⟨3, "Testproduct 3", 1236⟩, ⟨4, "Testproduct", 1250⟩] ∧
    (App.filterByName (DB.mk0 [⟨1, "Testproduct", 1234⟩, ⟨2, "Testproduct 2", 1235⟩,
      ⟨3, "Testproduct 3", 1236⟩, ⟨4, "Testproduct", 1250⟩] 5) (some ⟨"Testproduct"⟩)).2
      = respondWithJSON StatusOK (.products (some
          [⟨1, "Testproduct", ⟨3234857, -18⟩⟩, ⟨4, "Testproduct", ⟨25, -1⟩⟩])) ∧
    jsonNumber ⟨3234857, -18⟩ = ⟨1234, 2⟩ ∧ jsonNumber ⟨25, -1⟩ = ⟨125, 1⟩ ∧
    (App.filterByName (DB.mk0 [⟨1, "Testproduct", 1234⟩] 2) (some ⟨"testproduct"⟩)).2
      = respondWithJSON StatusOK (.products (some [])) ∧
    (App.filterByName (DB.mk0 [⟨1, "Testproduct", 1234⟩] 2) (some ⟨"Test"⟩)).2
      = respondWithJSON StatusOK (.products (some [])) :=
  ⟨fun _ => rfl, by unfold DB.inColumn DB.mk0; decide,
   (C6_filterByName (DB.mk0 [⟨1, "Testproduct", 1234⟩, ⟨2, "Testproduct 2", 1235⟩,
      ⟨3, "Testproduct 3", 1236⟩, ⟨4, "Testproduct", 1250⟩] 5) "Testproduct"
      (fun _ => rfl) (by unfold DB.inColumn DB.mk0; decide)).2.1,
   by decide, by decide, by decide, by decide, by decide⟩

/-! ## C7: `POST /product/filterByPrice` -/

/-- C7, as stated, fails twice. A product priced 11.22 is not returned for
`minPrice = maxPrice = 11.22`: both bounds are read into the `float32`
11.22000026702880859375 and sent as 11.220000267028809, above the stored price;
likewise a product priced 19.99 is not returned for `maxPrice = 19.99`, sent as
19.989999771118164. And a product priced 20 is returned for
`minPrice = 20.0000001`, `maxPrice = 20`, although `minPrice > maxPrice`: both
bounds are read into the `float32` 20. -/
theorem C7_bounds_as_float32 :
    (App.filterByPrice (DB.mk0 [⟨1, "a", 1122⟩] 2) (some ⟨⟨1122, 2⟩, ⟨1122, 2⟩⟩)).2
      = respondWithJSON StatusOK (.products (some [])) ∧
    (App.filterByPrice (DB.mk0 [⟨1, "a", 1122⟩] 2) (some ⟨⟨1122, 2⟩, ⟨1122, 2⟩⟩)).1.log
      = [Stmt.selectByPrice ⟨11220000267028809, 15⟩ ⟨11220000267028809, 15⟩] ∧
    (App.filterByPrice (DB.mk0 [⟨1, "a", 1999⟩] 2) (some ⟨⟨0, 0⟩, ⟨1999, 2⟩⟩)).2
      = respondWithJSON StatusOK (.products (some [])) ∧
    (App.filterByPrice (DB.mk0 [⟨1, "a", 1999⟩] 2) (some ⟨⟨0, 0⟩, ⟨1999, 2⟩⟩)).1.log
      = [Stmt.selectByPrice ⟨0, 0⟩ ⟨19989999771118164, 15⟩] ∧
    (App.filterByPrice (DB.mk0 [⟨1, "a", 2000⟩] 2) (some ⟨⟨200000001, 7⟩, ⟨20, 0⟩⟩)).2
      = respondWithJSON StatusOK (.products (some [⟨1, "a", ⟨5, 2⟩⟩])) := by
  decide

/-- C7, amended: on a table of the declared column type and an engine that turns
nothing down, with `minPrice` and `maxPrice` read into the `float32` values `lo`
and `hi`, `getProductsByPriceRange` and `POST /product/filterByPrice` issue the
query with the bounds `param64 lo` and `param64 hi` (the two `float32` values as
the driver sends them) and return, for the stored rows whose price lies between
these two numbers, both included, none missing and none extra, in the order of
the table, the products read from them; the table is unchanged. A stored product
priced exactly at the lower or at the upper number sent is returned when it also
satisfies the other bound. The list is the empty non-nil slice when the lower
number sent is greater than the upper one, or when no price lies in the range. -/
theorem C7_filterByPrice (db : DB) (b : PriceFilterBody) (lo hi : F32)
    (h : db.healthy) (hcol : db.inColumn)
    (hlo : parseFloat32 b.minPrice = some lo) (hhi : parseFloat32 b.maxPrice = some hi) :
    (App.filterByPrice db (some b)).1.log
      = db.log ++ [Stmt.selectByPrice (param64 lo) (param64 hi)] ∧
    (∃ ps, List.Forall₂ Reads
        (db.rows.filter (fun r => (param64 lo).lePrice r.Price && (param64 hi).gePrice r.Price))
        ps ∧
      (getProductsByPriceRange db ⟨lo, hi⟩).2 = (some ps, none) ∧
      (App.filterByPrice db (some b)).2 = respondWithJSON StatusOK (.products (some ps))) ∧
    (App.filterByPrice db (some b)).1.rows = db.rows ∧
    (∀ r, r ∈ db.rows.filter
          (fun r => (param64 lo).lePrice r.Price && (param64 hi).gePrice r.Price) ↔
        r ∈ db.rows ∧ (param64 lo).m * 100 ≤ r.Price * 10 ^ (param64 lo).k ∧
          r.Price * 10 ^ (param64 hi).k ≤ (param64 hi).m * 100) ∧
    (∀ r ∈ db.rows, (param64 lo).m * 100 = r.Price * 10 ^ (param64 lo).k →
        r.Price * 10 ^ (param64 hi).k ≤ (param64 hi).m * 100 →
        r ∈ db.rows.filter
          (fun r => (param64 lo).lePrice r.Price && (param64 hi).gePrice r.Price)) ∧
    (∀ r ∈ db.rows, r.Price * 10 ^ (param64 hi).k = (param64 hi).m * 100 →
        (param64 lo).m * 100 ≤ r.Price * 10 ^ (param64 lo).k →
        r ∈ db.rows.filter
          (fun r => (param64 lo).lePrice r.Price && (param64 hi).gePrice r.Price)) ∧
    ((param64 hi).m * 10 ^ (param64 lo).k < (param64 lo).m * 10 ^ (param64 hi).k →
      (App.filterByPrice db (some b)).2 = respondWithJSON StatusOK (.products (some []))) ∧
    ((∀ r ∈ db.rows, ¬ ((param64 lo).m * 100 ≤ r.Price * 10 ^ (param64 lo).k ∧
          r.Price * 10 ^ (param64 hi).k ≤ (param64 hi).m * 100)) →
      (App.filterByPrice db (some b)).2 = respondWithJSON StatusOK (.products (some []))) := by
  have hdec : decodePriceFilter (some b) = some ⟨lo, hi⟩ := by
    simp [decodePriceFilter, hlo, hhi]
  have hmem : ∀ r, r ∈ db.rows.filter
        (fun r => (param64 lo).lePrice r.Price && (param64 hi).gePrice r.Price) ↔
      r ∈ db.rows ∧ (param64 lo).m * 100 ≤ r.Price * 10 ^ (param64 lo).k ∧
        r.Price * 10 ^ (param64 hi).k ≤ (param64 hi).m * 100 := by
    intro r
    simp [List.mem_filter, Decimal.lePrice, Decimal.gePrice]
  have hsub : ∀ r ∈ db.rows.filter
      (fun r => (param64 lo).lePrice r.Price && (param64 hi).gePrice r.Price),
      -10000000000 < r.Price ∧ r.Price < 10000000000 :=
    fun r hr => hcol r (List.mem_filter.mp hr).1
  obtain ⟨ps, hps⟩ := scanRows_exists _ hsub
  have hacc : getProductsByPriceRange db ⟨lo, hi⟩ =
      ({ db with log := db.log ++ [.selectByPrice (param64 lo) (param64 hi)] },
       some ps, none) := by
    unfold getProductsByPriceRange
    rw [run_applied db _ (h _)]
    exact collect_ok _ _ _ hps
  have hh : App.filterByPrice db (some b) =
      ({ db with log := db.log ++ [.selectByPrice (param64 lo) (param64 hi)] },
       respondWithJSON StatusOK (.products (some ps))) := by
    unfold App.filterByPrice
    rw [hdec]
    dsimp only
    rw [hacc]
  have hempty : (∀ r ∈ db.rows, ¬ ((param64 lo).m * 100 ≤ r.Price * 10 ^ (param64 lo).k ∧
          r.Price * 10 ^ (param64 hi).k ≤ (param64 hi).m * 100)) → ps = [] := by
    intro hno
    have hnil : db.rows.filter
        (fun r => (param64 lo).lePrice r.Price && (param64 hi).gePrice r.Price) = [] := by
      rw [List.filter_eq_nil_iff]
      intro r hr hc
      exact hno r hr ((hmem r).mp (List.mem_filter.mpr ⟨hr, hc⟩)).2
    rw [hnil] at hps
    simp only [scanRows, Option.some.injEq] at hps
    exact hps.symm
  refine ⟨by rw [hh], ⟨ps, scanRows_reads _ _ hps, by rw [hacc], by rw [hh]⟩, by rw [hh],
    hmem, ?_, ?_, ?_, ?_⟩
  · intro r hr h1 h2
    exact (hmem r).mpr ⟨hr, le_of_eq h1, h2⟩
  · intro r hr h1 h2
    exact (hmem r).mpr ⟨hr, h2, le_of_eq h1⟩
  · intro hlt
    have hP : (0 : Int) < 10 ^ (param64 lo).k := by positivity
    have hQ : (0 : Int) < 10 ^ (param64 hi).k := by positivity
    have hno : ∀ r ∈ db.rows, ¬ ((param64 lo).m * 100 ≤ r.Price * 10 ^ (param64 lo).k ∧
          r.Price * 10 ^ (param64 hi).k ≤ (param64 hi).m * 100) := by
      intro r _ hc
      have hA := mul_le_mul_of_nonneg_right hc.1 (le_of_lt hQ)
      have hB := mul_le_mul_of_nonneg_right hc.2 (le_of_lt hP)
      nlinarith
    rw [hh, hempty hno]
  · intro hno
    rw [hh, hempty hno]

/-- Witness of C7: the table and the filter of `TestGetProductsByPrice` (prices
10, 20, 30, 50, 40, range 20 to 40): the bounds are sent as 20 and 40 and the
products priced 20, 30 and 40 are returned. -/
theorem C7_filterByPrice_witness :
    (DB.mk0 [⟨1, "Testproduct 1", 1000⟩, ⟨2, "Testproduct 2", 2000⟩,
      ⟨3, "Testproduct 3", 3000⟩, ⟨4, "Testproduct 4", 5000⟩,
      ⟨5, "Testproduct 5", 4000⟩] 6).healthy ∧
    (DB.mk0 [⟨1, "Testproduct 1", 1000⟩, ⟨2, "Testproduct 2", 2000⟩,
      ⟨3, "Testproduct 3", 3000⟩, ⟨4, "Testproduct 4", 5000⟩,
      ⟨5, "Testproduct 5", 4000⟩] 6).inColumn ∧
    parseFloat32 ⟨20, 0⟩ = some ⟨5, 2⟩ ∧ parseFloat32 ⟨40, 0⟩ = some ⟨5, 3⟩ ∧
    param64 ⟨5, 2⟩ = ⟨20, 0⟩ ∧ param64 ⟨5, 3⟩ = ⟨40, 0⟩ ∧
    (App.filterByPrice (DB.mk0 [⟨1, "Testproduct 1", 1000⟩, ⟨2, "Testproduct 2", 2000⟩,
      ⟨3, "Testproduct 3", 3000⟩, ⟨4, "Testproduct 4", 5000⟩,
      ⟨5, "Testproduct 5", 4000⟩] 6) (some ⟨⟨20, 0⟩, ⟨40, 0⟩⟩)).1.log
      = (DB.mk0 [⟨1, "Testproduct 1", 1000⟩, ⟨2, "Testproduct 2", 2000⟩,
      ⟨3, "Testproduct 3", 3000⟩, ⟨4, "Testproduct 4", 5000⟩,
      ⟨5, "Testproduct 5", 4000⟩] 6).log ++ [Stmt.selectByPrice (param64 ⟨5, 2⟩) (param64 ⟨5, 3⟩)] ∧
    (App.filterByPrice (DB.mk0 [⟨1, "Testproduct 1", 1000⟩, ⟨2, "Testproduct 2", 2000⟩,
      ⟨3, "Testproduct 3", 3000⟩, ⟨4, "Testproduct 4", 5000⟩,
      ⟨5, "Testproduct 5", 4000⟩] 6) (some ⟨⟨20, 0⟩, ⟨40, 0⟩⟩)).2
      = respondWithJSON StatusOK (.products (some [⟨2, "Testproduct 2", ⟨5, 2⟩⟩,
          ⟨3, "Testproduct 3", ⟨15, 1⟩⟩, ⟨5, "Testproduct 5", ⟨5, 3⟩⟩])) :=
  ⟨fun _ => rfl, by unfold DB.inColumn DB.mk0; decide, by decide, by decide, by decide,
   by decide,
   (C7_filterByPrice (DB.mk0 [⟨1, "Testproduct 1", 1000⟩, ⟨2, "Testproduct 2", 2000⟩,
      ⟨3, "Testproduct 3", 3000⟩, ⟨4, "Testproduct 4", 5000⟩,
      ⟨5, "Testproduct 5", 4000⟩] 6) ⟨⟨20, 0⟩, ⟨40, 0⟩⟩ ⟨5, 2⟩ ⟨5, 3⟩ (fun _ => rfl)
      (by unfold DB.inColumn DB.mk0; decide) (by decide) (by decide)).1,
   by decide⟩

/-! ## C8: `PUT /product/{id}` -/

/-- C8, as stated, fails twice. Not every path id gives 200: the path id
`9223372036854775808`, which the route pattern admits and `Atoi` rejects, is
answered 400 and nothing is updated. And the stored product does not always get
the price of the body: the body price 131072.01 is read into the `float32`
131072.015625, which the 200 body carries (`json.Marshal` writes it as
131072.02) and which is stored as 131072.02. -/
theorem C8_not_as_supplied :
    (Atoi "9223372036854775808").2 = true ∧
    App.updateProduct (DB.mk0 [⟨1, "a", 1000⟩] 2) "9223372036854775808"
        (some ⟨0, "b", ⟨2000, 2⟩⟩)
      = (DB.mk0 [⟨1, "a", 1000⟩] 2, respondWithError StatusBadRequest "Invalid product ID") ∧
    (App.updateProduct (DB.mk0 [⟨1, "a", 1000⟩] 2) "1" (some ⟨0, "b", ⟨13107201, 2⟩⟩)).2
      = respondWithJSON StatusOK (.product ⟨1, "b", ⟨8388609, -6⟩⟩) ∧
    jsonNumber ⟨8388609, -6⟩ = ⟨13107202, 2⟩ ∧
    (App.updateProduct (DB.mk0 [⟨1, "a", 1000⟩] 2) "1" (some ⟨0, "b", ⟨13107201, 2⟩⟩)).1.rows
      = [⟨1, "b", 13107202⟩] ∧
    toNumeric ⟨13107201, 2⟩ = 13107201 := by
  refine ⟨by decide, rfl, by decide, by decide, by decide, by decide⟩

/-- C8, amended: for a path id that converts to the integer `n`, a body whose
price reads into the `float32` `f` and, brought to two decimals, fits the column,
and an engine that turns nothing down, `PUT /product/{id}` answers 200 with the product of id `n` carrying the name of
the body and the price `f`; in the table every row with id `n` gets that name and
the price `f` as the driver sends it, brought to two decimals (the price of the
body at two decimals whenever that rounding of `f` gives it), and keeps its id,
every other row is unchanged, position by position, and the sequence is
unchanged; when no row has id `n` the rows are unchanged and the answer is the
same 200. The id of the body plays no part: any other id in the body gives the
same answer and table. A path id that `Atoi` rejects is answered 400
`Invalid product ID` and the database is returned as it was. -/
theorem C8_updateProduct (db : DB) (s : String) (n : Int) (b : ProductBody) (f : F32)
    (hid : Atoi s = (n, false)) (h : db.healthy) (hf : parseFloat32 b.price = some f)
    (hfit : fitsColumn (toNumeric (param64 f)) = true) :
    (App.updateProduct db s (some b)).2
      = respondWithJSON StatusOK (.product ⟨n, b.name, f⟩) ∧
    (App.updateProduct db s (some b)).1.rows
      = db.rows.map (fun r => if r.ID = n then ⟨n, b.name, toNumeric (param64 f)⟩ else r) ∧
    (App.updateProduct db s (some b)).1.seq = db.seq ∧
    (App.updateProduct db s (some b)).1.rows.map (fun r => r.ID)
      = db.rows.map (fun r => r.ID) ∧
    ((∀ r ∈ db.rows, r.ID ≠ n) →
      (App.updateProduct db s (some b)).1.rows = db.rows ∧
      (App.updateProduct db s (some b)).2
        = respondWithJSON StatusOK (.product ⟨n, b.name, f⟩)) ∧
    (∀ k : Int,
      (App.updateProduct db s (some { b with id := k })).2
        = (App.updateProduct db s (some b)).2 ∧
      (App.updateProduct db s (some { b with id := k })).1.rows
        = (App.updateProduct db s (some b)).1.rows) ∧
    (toNumeric (param64 f) = toNumeric b.price →
      (App.updateProduct db s (some b)).1.rows
        = db.rows.map (fun r => if r.ID = n then ⟨n, b.name, toNumeric b.price⟩ else r)) ∧
    (∀ t : String, (Atoi t).2 = true →
      App.updateProduct db t (some b)
        = (db, respondWithError StatusBadRequest "Invalid product ID")) := by
  have hu : ∀ c : ProductBody, c.name = b.name → c.price = b.price →
      App.updateProduct db s (some c) =
      ({ db with rows := List.map (fun r => if r.ID = n then ⟨n, b.name, toNumeric (param64 f)⟩ else r) db.rows,
                 log := db.log ++ [.update b.name (param64 f) n] },
       respondWithJSON StatusOK (.product ⟨n, b.name, f⟩)) := by
    intro c hcn hcp
    have hdec : decodeProduct (some c) = some ⟨c.id, b.name, f⟩ := by
      simp [decodeProduct, hcn, hcp, hf]
    have hmap : db.rows.map
        (fun r => if (r.ID == n) = true
          then { r with Name := b.name, Price := toNumeric (param64 f) } else r)
        = db.rows.map (fun r => if r.ID = n then ⟨n, b.name, toNumeric (param64 f)⟩ else r) := by
      apply List.map_congr_left
      intro r _
      by_cases hrn : r.ID = n
      · simp [hrn]
      · simp [hrn]
    unfold App.updateProduct
    rw [hid]
    dsimp only
    rw [hdec]
    simp only [Product.updateProduct, run_applied db _ (h (.update b.name (param64 f) n)),
      DB.apply, hmap, hfit, Bool.not_true, Bool.false_eq_true, if_false]
  have hp := hu b rfl rfl
  refine ⟨by rw [hp], by rw [hp], by rw [hp], ?_, ?_, ?_, ?_, ?_⟩
  · rw [hp]
    dsimp only
    rw [List.map_map]
    apply List.map_congr_left
    intro r _
    by_cases hrn : r.ID = n
    · simp [hrn]
    · simp [hrn]
  · intro hno
    rw [hp]
    refine ⟨?_, rfl⟩
    dsimp only
    conv_rhs => rw [← List.map_id db.rows]
    apply List.map_congr_left
    intro r hr
    simp [hno r hr]
  · intro k
    rw [hp, hu { b with id := k } rfl rfl]
    exact ⟨rfl, rfl⟩
  · intro h1
    rw [hp]
    dsimp only
    rw [h1]
  · intro t ht
    unfold App.updateProduct
    rcases hA : Atoi t with ⟨m, e⟩
    rw [hA] at ht
    cases e
    · simp at ht
    · rfl

/-- Witness of C8: the request of `TestUpdateProduct` (price 11.22) with an id in
the body, on a table of two products: product 1 is overwritten, product 2 is
kept. -/
theorem C8_updateProduct_witness :
    Atoi "1" = (1, false) ∧ (DB.mk0 [⟨1, "product 0", 1000⟩, ⟨2, "b", 2000⟩] 3).healthy ∧
    parseFloat32 ⟨1122, 2⟩ = some ⟨11765023, -20⟩ ∧
    fitsColumn (toNumeric (param64 ⟨11765023, -20⟩)) = true ∧
    toNumeric (param64 ⟨11765023, -20⟩) = toNumeric ⟨1122, 2⟩ ∧
    jsonNumber ⟨11765023, -20⟩ = ⟨1122, 2⟩ ∧
    (App.updateProduct (DB.mk0 [⟨1, "product 0", 1000⟩, ⟨2, "b", 2000⟩] 3) "1"
        (some ⟨77, "test product - updated name", ⟨1122, 2⟩⟩)).2
      = respondWithJSON StatusOK
          (.product ⟨1, "test product - updated name", ⟨11765023, -20⟩⟩) ∧
    (App.updateProduct (DB.mk0 [⟨1, "product 0", 1000⟩, ⟨2, "b", 2000⟩] 3) "1"
        (some ⟨77, "test product - updated name", ⟨1122, 2⟩⟩)).1.rows
      = [⟨1, "test product - updated name", 1122⟩, ⟨2, "b", 2000⟩] :=
  ⟨by decide, fun _ => rfl, by decide, by decide, by decide, by decide,
   (C8_updateProduct (DB.mk0 [⟨1, "product 0", 1000⟩, ⟨2, "b", 2000⟩] 3) "1" 1
      ⟨77, "test product - updated name", ⟨1122, 2⟩⟩ ⟨11765023, -20⟩ (by decide)
      (fun _ => rfl) (by decide) (by decide)).1,
   by decide⟩

/-! ## C9: bodies that fail to decode -/

/-- C9, as stated, fails for `updateProduct`: with the path id
`9223372036854775808`, which the route pattern admits and `Atoi` rejects, and a
body that fails to decode, the answer is 400 `Invalid product ID`, not
400 `Invalid request payload`. -/
theorem C9_update_unconvertible_id :
    (Atoi "9223372036854775808").2 = true ∧
    (App.updateProduct DB.empty "9223372036854775808" none).2
      = respondWithError StatusBadRequest "Invalid product ID" ∧
    (App.updateProduct DB.empty "9223372036854775808" none).2
      ≠ respondWithError StatusBadRequest invalidRequestPayloadMsg := by
  decide

/-- C9, amended: when the body fails to decode, `createProduct`,
`duplicateProduct`, `filterByName` and `filterByPrice` answer 400
`Invalid request payload` and return the database as it was, log included (no
statement is issued); so does `updateProduct` when its path id converts to an
integer, and when it does not, `updateProduct` answers 400 `Invalid product ID`,
the database again as it was. The same holds when the text of the body decodes
but a price in it is beyond `float32`, which makes `Decode` fail as well. -/
theorem C9_undecodable_body (db : DB) (s : String) :
    App.createProduct db none
      = (db, respondWithError StatusBadRequest invalidRequestPayloadMsg) ∧
    App.duplicateProduct db none
      = (db, respondWithError StatusBadRequest invalidRequestPayloadMsg) ∧
    App.filterByName db none
      = (db, respondWithError StatusBadRequest invalidRequestPayloadMsg) ∧
    App.filterByPrice db none
      = (db, respondWithError StatusBadRequest invalidRequestPayloadMsg) ∧
    ((Atoi s).2 = false → App.updateProduct db s none
      = (db, respondWithError StatusBadRequest invalidRequestPayloadMsg)) ∧
    ((Atoi s).2 = true → App.updateProduct db s none
      = (db, respondWithError StatusBadRequest "Invalid product ID")) ∧
    (App.updateProduct db s none).1.log = db.log ∧
    (App.updateProduct db s none).1.rows = db.rows ∧
    (App.updateProduct db s none).2.code = StatusBadRequest ∧
    (∀ body, decodeProduct body = none →
      App.createProduct db body
        = (db, respondWithError StatusBadRequest invalidRequestPayloadMsg) ∧
      ((Atoi s).2 = false → App.updateProduct db s body
        = (db, respondWithError StatusBadRequest invalidRequestPayloadMsg)) ∧
      ((Atoi s).2 = true → App.updateProduct db s body
        = (db, respondWithError StatusBadRequest "Invalid product ID"))) ∧
    (∀ body, decodePriceFilter body = none →
      App.filterByPrice db body
        = (db, respondWithError StatusBadRequest invalidRequestPayloadMsg)) := by
  have hupd : ∀ body, decodeProduct body = none →
      ((Atoi s).2 = false → App.updateProduct db s body
        = (db, respondWithError StatusBadRequest invalidRequestPayloadMsg)) ∧
      ((Atoi s).2 = true → App.updateProduct db s body
        = (db, respondWithError StatusBadRequest "Invalid product ID")) := by
    intro body hb
    unfold App.updateProduct
    rcases hA : Atoi s with ⟨n, b⟩
    cases b <;> simp [hb]
  have hnone : decodeProduct none = none := rfl
  refine ⟨rfl, rfl, rfl, rfl, (hupd none hnone).1, (hupd none hnone).2, ?_, ?_, ?_, ?_, ?_⟩
  · rcases hA : (Atoi s).2 with _ | _
    · rw [(hupd none hnone).1 hA]
    · rw [(hupd none hnone).2 hA]
  · rcases hA : (Atoi s).2 with _ | _
    · rw [(hupd none hnone).1 hA]
    · rw [(hupd none hnone).2 hA]
  · rcases hA : (Atoi s).2 with _ | _
    · rw [(hupd none hnone).1 hA]
      rfl
    · rw [(hupd none hnone).2 hA]
      rfl
  · intro body hb
    refine ⟨?_, hupd body hb⟩
    unfold App.createProduct
    rw [hb]
  · intro body hb
    unfold App.filterByPrice
    rw [hb]

/-- Witness of C9: `PUT /product/1` with a body that fails to decode, on a
table holding product 1. -/
theorem C9_undecodable_body_witness :
    (Atoi "1").2 = false ∧
    App.updateProduct (DB.mk0 [⟨1, "a", 10⟩] 2) "1" none
      = (DB.mk0 [⟨1, "a", 10⟩] 2, respondWithError StatusBadRequest invalidRequestPayloadMsg) :=
  ⟨by decide, (C9_undecodable_body (DB.mk0 [⟨1, "a", 10⟩] 2) "1").2.2.2.2.1 (by decide)⟩

/-! ## C10: path ids that do not convert -/

/-- C10 at the failing input: for the path id `9223372036854775808`, which
`Atoi` rejects, `getProduct` and `updateProduct` answer 400 with the message
`Invalid product ID`, whereas `deleteProduct` answers 400 with the message
`Invalid Product ID` (capital P), a different text; none issues a statement.
The same holds for `deleteProduct` on every database and every path id that
`Atoi` rejects. -/
theorem C10_delete_message_differs :
    (Atoi "9223372036854775808").2 = true ∧
    (App.getProduct DB.empty "9223372036854775808").2
      = respondWithError StatusBadRequest "Invalid product ID" ∧
    (App.updateProduct DB.empty "9223372036854775808" (some ⟨0, "a", ⟨10, 0⟩⟩)).2
      = respondWithError StatusBadRequest "Invalid product ID" ∧
    (App.deleteProduct DB.empty "9223372036854775808").2
      = respondWithError StatusBadRequest "Invalid Product ID" ∧
    (App.deleteProduct DB.empty "9223372036854775808").2
      ≠ respondWithError StatusBadRequest "Invalid product ID" ∧
    (App.deleteProduct DB.empty "9223372036854775808").1.log = [] ∧
    (∀ (db : DB) (s : String), (Atoi s).2 = true →
      App.deleteProduct db s = (db, respondWithError StatusBadRequest "Invalid Product ID")) := by
  refine ⟨by decide, by decide, by decide, by decide, by decide, by decide, ?_⟩
  intro db s hs
  unfold App.deleteProduct
  rcases hA : Atoi s with ⟨n, b⟩
  rw [hA] at hs
  cases b
  · simp at hs
  · rfl

end Semaphore
